import Mathlib

/-!
# mattermost-plugin-apps: App composition harness, KV capability, AWS commands

A shallow embedding of `apps/goapp/app.go`, `server/appservices/kv.go` and
`cmd/appsctl/aws.go`, and of the functions of Go's standard library that they
call (`unicode.IsSpace`, `json.Valid`, `url.PathEscape`, `url.Parse`),
together with the properties proved about them.

Conventions of the embedding:

* a Go `string` that is ranged over rune by rune is a Lean `String` (a list of
  Unicode scalar values); a Go `[]byte` is a `List UInt8`;
* a Go `error` is an `Option GoError` (`none` is `nil`);
* a function that mutates state through a pointer takes the state and returns
  the new state next to its results;
* a panic is an `Except.error`.
-/

namespace Goapp

/-! ## Location derivation (`apps/goapp/app.go`, lines 198-211) -/

/-- Go's `unicode.IsSpace` (standard library): the Latin-1 white space
`'\t'`, `'\n'`, `'\v'`, `'\f'`, `'\r'`, `' '`, U+0085, U+00A0, and above
Latin-1 the code points of the `White_Space` property. -/
def unicodeIsSpace (c : Char) : Bool :=
  let n := c.toNat
  if n ≤ 0xFF then
    n == 0x09 || n == 0x0A || n == 0x0B || n == 0x0C || n == 0x0D || n == 0x20
      || n == 0x85 || n == 0xA0
  else
    n == 0x1680 || (0x2000 ≤ n && n ≤ 0x200A) || n == 0x2028 || n == 0x2029
      || n == 0x202F || n == 0x205F || n == 0x3000

/-- The body of the `for _, c := range name` loop of `locationFromName`:
the rune that is written to the buffer for the rune `c`. -/
def locationRune (c : Char) : Char :=
  if unicodeIsSpace c || c == '_' then '-' else c

/-- The function `locationFromName`: every rune of `name` is written to a
buffer, after being replaced by `'-'` when `unicode.IsSpace` holds of it or it
is an underscore. -/
def locationFromName (name : String) : String :=
  name.data.foldl (fun b c => b.push (locationRune c)) ""

end Goapp

/-! ## Errors (`utils` package, used by both components) -/

namespace Utils

/-- Modelled from the spec: the error values of package `utils`, which is
declared outside `app.go` and `kv.go`. An error is one of the package's
sentinel values or a message wrapped around a cause, as `errors.Wrap` builds
it (spec section 7: permission, validation and not-found errors are told apart
by their kind). -/
inductive GoError where
  | sentinel (text : String)
  | wrap (msg : String) (cause : GoError)
  deriving DecidableEq, Repr

/-- Go's `errors.Is`: `target` is found somewhere along the chain of causes. -/
def errorsIs : GoError → GoError → Bool
  | .sentinel t, target => decide (GoError.sentinel t = target)
  | .wrap msg cause, target =>
    decide (GoError.wrap msg cause = target) || errorsIs cause target

/-- Modelled from the spec: the sentinel `utils.ErrNotFound`, the not-found
condition. -/
def ErrNotFound : GoError := .sentinel "not found"

/-- Modelled from the spec: the sentinel `utils.ErrInvalid`, the kind of the
validation errors. -/
def ErrInvalid : GoError := .sentinel "invalid input"

/-- Modelled from the spec: the sentinel `utils.ErrUnauthorized`, the kind of
the permission errors. -/
def ErrUnauthorized : GoError := .sentinel "unauthorized"

/-- Modelled from the spec: the constructor `utils.NewInvalidError(msg)`, a
validation error that carries the message. -/
def NewInvalidError (msg : String) : GoError := .wrap msg ErrInvalid

/-- Modelled from the spec: the constructor `utils.NewUnauthorizedError(msg)`,
a permission error that carries the message. -/
def NewUnauthorizedError (msg : String) : GoError := .wrap msg ErrUnauthorized

end Utils

/-! ## The manifest (`apps` package) -/

namespace Apps

/-- The type `apps.Permission`, a string. -/
abbrev Permission := String

/-- The type `apps.Location`, a string. -/
abbrev Location := String

/-- The type `apps.DeployType`, a string. -/
abbrev DeployType := String

/-- Modelled from the spec: the constant `apps.PermissionActAsBot` of package
`apps`, "act as the App's bot". -/
def PermissionActAsBot : Permission := "act_as_bot"

/-- Modelled from the spec: the constant `apps.LocationCommand` of package
`apps`, the command palette. -/
def LocationCommand : Location := "/command"

/-- Modelled from the spec: the constant `apps.LocationPostMenu` of package
`apps`, the post menu. -/
def LocationPostMenu : Location := "/post_menu"

/-- Modelled from the spec: the constant `apps.LocationChannelHeader` of
package `apps`, the channel header. -/
def LocationChannelHeader : Location := "/channel_header"

/-- Modelled from the spec: the constant `apps.DeployHTTP` of package `apps`,
the HTTP deploy type. -/
def DeployHTTP : DeployType := "http"

/-- Modelled from the spec: the struct `apps.HTTP` of package `apps`, the HTTP
deploy settings with their root URL. -/
structure HTTP where
  RootURL : String
  deriving DecidableEq, Repr

/-- Modelled from the spec: the struct `apps.Deploy` of package `apps`, with
the field that `app.go` uses; `HTTP` is a pointer, `none` is `nil`. -/
structure Deploy where
  HTTP : Option HTTP
  deriving DecidableEq, Repr

/-- Modelled from the spec: the struct `apps.Manifest` of package `apps` (spec
section 3), with the fields that `app.go` reads or writes. -/
structure Manifest where
  AppID : String
  DisplayName : String
  Version : String
  RequestedPermissions : List Permission
  RequestedLocations : List Location
  Deploy : Deploy
  deriving DecidableEq, Repr

/-- Modelled from the spec: the method `Locations.Contains` of package `apps`;
a location is "already present" when it is a member of the list. -/
def Locations.Contains (list : List Location) (loc : Location) : Bool :=
  list.any (fun current => current == loc)

end Apps

namespace Goapp

open Utils Apps

/-! ## The App and its router (`apps/goapp/app.go`, lines 20-138) -/

/-- A handle on a `utils.Logger`. -/
structure Logger where
  id : Nat
  deriving DecidableEq, Repr

/-- A handle on an `fs.FS`. -/
structure FS where
  id : Nat
  deriving DecidableEq, Repr

/-- What a route of the `mux.Router` answers with. -/
inductive Handler where
  /-- the handler `httputils.DoHandleJSONData(body)` -/
  | jsonData (body : List UInt8)
  /-- the handler `httputils.DoHandleJSON(&app.Manifest)` -/
  | jsonManifest
  /-- a Call handler registered through `app.HandleCall` -/
  | call (name : String)
  /-- the handler `http.FileServer(http.FS(staticFS))` -/
  | fileServer (staticFS : FS)
  deriving DecidableEq, Repr

/-- One route of the router: `Path(p)` or `PathPrefix(p)`, the handler, and
the methods it is restricted to (`[]` is no restriction). -/
structure Route where
  path : String
  subtree : Bool
  handler : Handler
  methods : List String
  deriving DecidableEq, Repr

/-- The `mux.Router`: its routes in registration order, and whether the
`NotFoundHandler` has been set. -/
structure Router where
  routes : List Route
  notFoundSet : Bool
  deriving DecidableEq, Repr

/-- The router that `mux.NewRouter()` returns. -/
def NewRouter : Router := { routes := [], notFoundSet := false }

/-- The call `router.Path(p).HandlerFunc(h)`, followed by `.Methods(ms...)` when `ms`
is not empty. -/
def Router.handle (r : Router) (p : String) (h : Handler) (ms : List String) : Router :=
  { r with routes := r.routes ++ [{ path := p, subtree := false, handler := h, methods := ms }] }

/-- The call `router.PathPrefix(p).Handler(h)`. -/
def Router.handleSubtree (r : Router) (p : String) (h : Handler) : Router :=
  { r with routes := r.routes ++ [{ path := p, subtree := true, handler := h, methods := [] }] }

/-- The `App` struct; `B` is the type of the `Bindable` values. -/
structure App (B : Type) where
  Manifest : Manifest
  log : Option Logger
  Mode : DeployType
  Router : Router
  command : Option B
  postMenu : List B
  channelHeader : List B
  deriving DecidableEq, Repr

/-- The type `AppOption`, `func(app *App) error`: a step receives the App, may change it
and may fail. A Go closure can also act on whatever it captured; `W` is that
outside state, so that a step which is not run leaves it as it was. -/
abbrev AppOption (B W : Type) := App B → W → Option GoError × App B × W

/-- Modelled from the spec: the method `App.HandleCall`, declared in package
`goapp` outside `app.go`; it registers a handler "reachable through the Call
protocol" under the given path. -/
def App.HandleCall {B : Type} (app : App B) (p : String) (name : String) : App B :=
  { app with Router := app.Router.handle p (.call name) [] }

/-- The functions of package `goapp` that the built-in steps call and that are
declared outside `app.go`: `MakeBindableMulti(name, WithChildren(subs...))`,
`(*BindableMulti).Init(app)` and `runInitializers(items, app)`. They are taken
as given; the initialisers receive the App and may change it. -/
structure Bindables (B : Type) where
  MakeBindableMulti : String → List B → Except GoError B
  Init : B → App B → Option GoError × App B
  runInitializers : List B → App B → Option GoError × App B

/-- The `for _, opt := range opts` loop of `MakeApp`: the options run in
order and the first error ends the loop. -/
def runOptions {B W : Type} : List (AppOption B W) → App B → W → Option GoError × App B × W
  | [], app, w => (none, app, w)
  | opt :: rest, app, w =>
    match opt app w with
    | (some err, app1, w1) => (some err, app1, w1)
    | (none, app1, w1) => runOptions rest app1 w1

/-- The options of the list, run in order from the first state, all return
no error and lead to the second state. -/
inductive AllSucceed {B W : Type} : List (AppOption B W) → App B × W → App B × W → Prop where
  | nil (st : App B × W) : AllSucceed [] st st
  | cons (opt : AppOption B W) (rest : List (AppOption B W)) (app app1 : App B) (w w1 : W)
      (st : App B × W) :
      opt app w = (none, app1, w1) → AllSucceed rest (app1, w1) st →
      AllSucceed (opt :: rest) (app, w) st

/-- Lines 43-53 of `MakeApp`: the permissions are defaulted and the App is
created around the manifest and a new router. -/
def newApp {B : Type} (m : Manifest) : App B :=
  let m := if m.RequestedPermissions.length = 0 then
      { m with RequestedPermissions := [PermissionActAsBot] }
    else m
  { Manifest := m, log := none, Mode := "", Router := NewRouter,
    command := none, postMenu := [], channelHeader := [] }

/-- Lines 63-71 of `MakeApp`: the auto-served routes and the not-found
handler are registered. -/
def autoServe {B : Type} (app : App B) : App B :=
  let app := { app with Router := app.Router.handle "/ping" (.jsonData [0x7B, 0x7D]) [] }
  let app := { app with Router := app.Router.handle "/manifest.json" .jsonManifest ["GET"] }
  let app := app.HandleCall "/bindings" "getBindings"
  { app with Router := { app.Router with notFoundSet := true } }

/-- The function `MakeApp`: creates the App, runs the options, then registers
the auto-served routes. The result is `(app, err)`, next to the outside state
the options left behind. -/
def MakeApp {B W : Type} (m : Manifest) (opts : List (AppOption B W)) (w : W) :
    (Option (App B) × Option GoError) × W :=
  match runOptions opts (newApp m) w with
  | (some err, _, w1) => ((none, some err), w1)
  | (none, app, w1) => ((some (autoServe app), none), w1)

/-- The option `WithLog(log)` of `app.go`. -/
def WithLog {B W : Type} (log : Logger) : AppOption B W :=
  fun app w => (none, { app with log := some log }, w)

/-- The option `WithStatic(staticFS)` of `app.go`. -/
def WithStatic {B W : Type} (staticFS : FS) : AppOption B W :=
  fun app w =>
    (none, { app with Router := app.Router.handleSubtree "/static/" (.fileServer staticFS) }, w)

/-- The option `WithCommand(subcommands...)` of `app.go`. -/
def WithCommand {B W : Type} (bs : Bindables B) (subcommands : List B) : AppOption B W :=
  fun app w =>
    match bs.MakeBindableMulti app.Manifest.AppID subcommands with
    | .error err => (some err, app, w)
    | .ok command =>
      let app := { app with command := some command }
      match bs.Init command app with
      | (some err, app) => (some err, app, w)
      | (none, app) =>
        let app :=
          if !Locations.Contains app.Manifest.RequestedLocations LocationCommand then
            { app with Manifest := { app.Manifest with
                RequestedLocations := app.Manifest.RequestedLocations ++ [LocationCommand] } }
          else app
        (none, app, w)

/-- The option `WithPostMenu(items...)` of `app.go`. -/
def WithPostMenu {B W : Type} (bs : Bindables B) (items : List B) : AppOption B W :=
  fun app w =>
    let app := { app with postMenu := items }
    match bs.runInitializers app.postMenu app with
    | (some err, app) => (some err, app, w)
    | (none, app) =>
      let app :=
        if !Locations.Contains app.Manifest.RequestedLocations LocationPostMenu then
          { app with Manifest := { app.Manifest with
              RequestedLocations := app.Manifest.RequestedLocations ++ [LocationPostMenu] } }
        else app
      (none, app, w)

/-- The option `WithChannelHeader(items...)` of `app.go`. -/
def WithChannelHeader {B W : Type} (bs : Bindables B) (items : List B) : AppOption B W :=
  fun app w =>
    let app := { app with channelHeader := items }
    match bs.runInitializers app.channelHeader app with
    | (some err, app) => (some err, app, w)
    | (none, app) =>
      let app :=
        if !Locations.Contains app.Manifest.RequestedLocations LocationChannelHeader then
          { app with Manifest := { app.Manifest with
              RequestedLocations := app.Manifest.RequestedLocations ++ [LocationChannelHeader] } }
        else app
      (none, app, w)

/-- The built-in configuration steps of `app.go`, as data. -/
inductive BuiltinStep (B : Type) where
  | withLog (log : Logger)
  | withStatic (staticFS : FS)
  | withCommand (subcommands : List B)
  | withPostMenu (items : List B)
  | withChannelHeader (items : List B)

/-- The `AppOption` that a built-in step stands for. -/
def BuiltinStep.toOption {B W : Type} (bs : Bindables B) : BuiltinStep B → AppOption B W
  | .withLog log => WithLog log
  | .withStatic staticFS => WithStatic staticFS
  | .withCommand subcommands => WithCommand bs subcommands
  | .withPostMenu items => WithPostMenu bs items
  | .withChannelHeader items => WithChannelHeader bs items

/-- A sample of the functions declared outside `app.go`, over bindables that
are numbers: the command's initialiser registers a Call route, the
initialisers of a menu fail on an item that is `0`. -/
def sampleBindables : Bindables Nat where
  MakeBindableMulti _ subs := .ok subs.length
  Init b app := (none, app.HandleCall "/command" (toString b))
  runInitializers items app :=
    if items.contains 0 then (some (.sentinel "bad item"), app) else (none, app)

/-- A sample manifest that already requests the command location. -/
def sampleManifest : Manifest :=
  { AppID := "sample", DisplayName := "Sample", Version := "1.0",
    RequestedPermissions := [], RequestedLocations := [LocationCommand],
    Deploy := { HTTP := none } }

/-- A sample list of built-in steps in which the command and the post menu
are configured twice. -/
def sampleSteps : List (BuiltinStep Nat) :=
  [.withCommand [1], .withPostMenu [2], .withCommand [], .withLog ⟨7⟩,
    .withPostMenu [3, 4], .withChannelHeader [], .withStatic ⟨9⟩]

/-- The App that the loop of `MakeApp` and the auto-served routes make of the
sample manifest and the sample steps. -/
def sampleApp : App Nat :=
  autoServe (runOptions (W := Unit) (sampleSteps.map (BuiltinStep.toOption sampleBindables))
    (newApp sampleManifest) ()).2.1

/-- A sample option that fails with the given text, after adding `n` to the
outside state. -/
def failingOption {B : Type} (n : Nat) (text : String) : AppOption B Nat :=
  fun app w => (some (.sentinel text), app, w + n)

/-- A sample option that succeeds, after adding `n` to the outside state. -/
def countingOption {B : Type} (n : Nat) : AppOption B Nat :=
  fun app w => (none, app, w + n)

end Goapp

/-! ## JSON syntax check (Go's `encoding/json`, called by `KVSet`) -/

namespace Json

/-- The step functions of the scanner of `encoding/json`, by name. -/
inductive Step where
  | beginValue | beginValueOrEmpty | beginStringOrEmpty | beginString
  | endValue | endTop
  | inString | inStringEsc | inStringEscU | inStringEscU1 | inStringEscU12 | inStringEscU123
  | neg | one | zero | dot | dot0 | e | eSign | e0
  | t | tr | tru | f | fa | fal | fals | n | nu | nul
  | error
  deriving DecidableEq, Repr

/-- The entries of the scanner's `parseState` stack. -/
inductive ParseState where
  | objectKey | objectValue | arrayValue
  deriving DecidableEq, Repr

/-- The scanner: the current step function, whether the top-level value has
ended, the stack of open objects and arrays (innermost last), and whether an
error has been recorded. -/
structure Scanner where
  step : Step
  endTop : Bool
  parseState : List ParseState
  err : Bool
  deriving DecidableEq, Repr

/-- The scanner's `maxNestingDepth`. -/
def maxNestingDepth : Nat := 10000

/-- The scanner after `reset()`. -/
def Scanner.reset : Scanner :=
  { step := .beginValue, endTop := false, parseState := [], err := false }

/-- The scanner's `isSpace(c)`: the JSON white space bytes. -/
def isSpace (c : UInt8) : Bool :=
  c ≤ 0x20 && (c == 0x20 || c == 0x09 || c == 0x0D || c == 0x0A)

def isDigit (c : UInt8) : Bool := 0x30 ≤ c && c ≤ 0x39

def isDigit19 (c : UInt8) : Bool := 0x31 ≤ c && c ≤ 0x39

def isHex (c : UInt8) : Bool :=
  (0x30 ≤ c && c ≤ 0x39) || (0x61 ≤ c && c ≤ 0x66) || (0x41 ≤ c && c ≤ 0x46)

/-- The scanner's `error(c, context)`: records the error; the result code is
`scanError`, modelled as `false`. -/
def Scanner.error (s : Scanner) : Bool × Scanner :=
  (false, { s with step := .error, err := true })

/-- A step that goes on with the step function `next`; every result code
other than `scanError` is modelled as `true`. -/
def Scanner.goto (s : Scanner) (next : Step) : Bool × Scanner :=
  (true, { s with step := next })

/-- The scanner's `pushParseState`. -/
def Scanner.pushParseState (s : Scanner) (p : ParseState) : Bool × Scanner :=
  let s := { s with parseState := s.parseState ++ [p] }
  if s.parseState.length ≤ maxNestingDepth then (true, s) else s.error

/-- The scanner's `popParseState`. -/
def Scanner.popParseState (s : Scanner) : Scanner :=
  let s := { s with parseState := s.parseState.dropLast }
  if s.parseState.length = 0 then { s with step := .endTop, endTop := true }
  else { s with step := .endValue }

/-- Assignment to the innermost stack entry, `s.parseState[n-1] = p`. -/
def Scanner.setTop (s : Scanner) (p : ParseState) : Scanner :=
  { s with parseState := s.parseState.dropLast ++ [p] }

/-- Step `stateEndTop`: only white space may follow the top-level value; the
error is recorded but the result code is `scanEnd`. -/
def stateEndTop (s : Scanner) (c : UInt8) : Bool × Scanner :=
  if !isSpace c then (true, s.error.2) else (true, s)

/-- Step `stateEndValue`. -/
def stateEndValue (s : Scanner) (c : UInt8) : Bool × Scanner :=
  match s.parseState.getLast? with
  | none => stateEndTop { s with step := .endTop, endTop := true } c
  | some ps =>
    if isSpace c then s.goto .endValue
    else match ps with
      | .objectKey =>
        if c == 0x3A then (s.setTop .objectValue).goto .beginValue else s.error
      | .objectValue =>
        if c == 0x2C then (s.setTop .objectKey).goto .beginString
        else if c == 0x7D then (true, s.popParseState)
        else s.error
      | .arrayValue =>
        if c == 0x2C then s.goto .beginValue
        else if c == 0x5D then (true, s.popParseState)
        else s.error

/-- Step `stateBeginValue`. -/
def stateBeginValue (s : Scanner) (c : UInt8) : Bool × Scanner :=
  if isSpace c then (true, s)
  else if c == 0x7B then { s with step := .beginStringOrEmpty }.pushParseState .objectKey
  else if c == 0x5B then { s with step := .beginValueOrEmpty }.pushParseState .arrayValue
  else if c == 0x22 then s.goto .inString
  else if c == 0x2D then s.goto .neg
  else if c == 0x30 then s.goto .zero
  else if c == 0x74 then s.goto .t
  else if c == 0x66 then s.goto .f
  else if c == 0x6E then s.goto .n
  else if isDigit19 c then s.goto .one
  else s.error

/-- Step `stateBeginValueOrEmpty`. -/
def stateBeginValueOrEmpty (s : Scanner) (c : UInt8) : Bool × Scanner :=
  if isSpace c then (true, s)
  else if c == 0x5D then stateEndValue s c
  else stateBeginValue s c

/-- Step `stateBeginString`. -/
def stateBeginString (s : Scanner) (c : UInt8) : Bool × Scanner :=
  if isSpace c then (true, s)
  else if c == 0x22 then s.goto .inString
  else s.error

/-- Step `stateBeginStringOrEmpty`. -/
def stateBeginStringOrEmpty (s : Scanner) (c : UInt8) : Bool × Scanner :=
  if isSpace c then (true, s)
  else if c == 0x7D then stateEndValue (s.setTop .objectValue) c
  else stateBeginString s c

/-- Step `stateInString`. -/
def stateInString (s : Scanner) (c : UInt8) : Bool × Scanner :=
  if c == 0x22 then s.goto .endValue
  else if c == 0x5C then s.goto .inStringEsc
  else if c < 0x20 then s.error
  else (true, s)

/-- Step `stateInStringEsc`: after a backslash. -/
def stateInStringEsc (s : Scanner) (c : UInt8) : Bool × Scanner :=
  if c == 0x62 || c == 0x66 || c == 0x6E || c == 0x72 || c == 0x74 || c == 0x5C
      || c == 0x2F || c == 0x22 then s.goto .inString
  else if c == 0x75 then s.goto .inStringEscU
  else s.error

/-- Steps `stateInStringEscU` to `stateInStringEscU123`: a hexadecimal digit
leads to `next`. -/
def stateHex (next : Step) (s : Scanner) (c : UInt8) : Bool × Scanner :=
  if isHex c then s.goto next else s.error

/-- Step `state0`: after a leading `0`, or after the digits of `state1`. -/
def state0 (s : Scanner) (c : UInt8) : Bool × Scanner :=
  if c == 0x2E then s.goto .dot
  else if c == 0x65 || c == 0x45 then s.goto .e
  else stateEndValue s c

/-- Step `state1`: in the integer part of a number. -/
def state1 (s : Scanner) (c : UInt8) : Bool × Scanner :=
  if isDigit c then s.goto .one else state0 s c

/-- Step `stateNeg`: after the minus sign. -/
def stateNeg (s : Scanner) (c : UInt8) : Bool × Scanner :=
  if c == 0x30 then s.goto .zero
  else if isDigit19 c then s.goto .one
  else s.error

/-- Step `stateDot`: after the decimal point. -/
def stateDot (s : Scanner) (c : UInt8) : Bool × Scanner :=
  if isDigit c then s.goto .dot0 else s.error

/-- Step `stateDot0`: in the fraction. -/
def stateDot0 (s : Scanner) (c : UInt8) : Bool × Scanner :=
  if isDigit c then (true, s)
  else if c == 0x65 || c == 0x45 then s.goto .e
  else stateEndValue s c

/-- Step `stateESign`: after the exponent's sign. -/
def stateESign (s : Scanner) (c : UInt8) : Bool × Scanner :=
  if isDigit c then s.goto .e0 else s.error

/-- Step `stateE`: after the exponent mark. -/
def stateE (s : Scanner) (c : UInt8) : Bool × Scanner :=
  if c == 0x2B || c == 0x2D then s.goto .eSign else stateESign s c

/-- Step `stateE0`: in the exponent's digits. -/
def stateE0 (s : Scanner) (c : UInt8) : Bool × Scanner :=
  if isDigit c then (true, s) else stateEndValue s c

/-- Steps `stateT` to `stateNul`: the next byte of `true`, `false` or `null`
is `want` and leads to `next`. -/
def stateLit (want : UInt8) (next : Step) (s : Scanner) (c : UInt8) : Bool × Scanner :=
  if c == want then s.goto next else s.error

/-- The call `s.step(s, c)`: the current step function applied to the byte `c`. -/
def Scanner.run (s : Scanner) (c : UInt8) : Bool × Scanner :=
  match s.step with
  | .beginValue => stateBeginValue s c
  | .beginValueOrEmpty => stateBeginValueOrEmpty s c
  | .beginStringOrEmpty => stateBeginStringOrEmpty s c
  | .beginString => stateBeginString s c
  | .endValue => stateEndValue s c
  | .endTop => stateEndTop s c
  | .inString => stateInString s c
  | .inStringEsc => stateInStringEsc s c
  | .inStringEscU => stateHex .inStringEscU1 s c
  | .inStringEscU1 => stateHex .inStringEscU12 s c
  | .inStringEscU12 => stateHex .inStringEscU123 s c
  | .inStringEscU123 => stateHex .inString s c
  | .neg => stateNeg s c
  | .one => state1 s c
  | .zero => state0 s c
  | .dot => stateDot s c
  | .dot0 => stateDot0 s c
  | .e => stateE s c
  | .eSign => stateESign s c
  | .e0 => stateE0 s c
  | .t => stateLit 0x72 .tr s c
  | .tr => stateLit 0x75 .tru s c
  | .tru => stateLit 0x65 .endValue s c
  | .f => stateLit 0x61 .fa s c
  | .fa => stateLit 0x6C .fal s c
  | .fal => stateLit 0x73 .fals s c
  | .fals => stateLit 0x65 .endValue s c
  | .n => stateLit 0x75 .nu s c
  | .nu => stateLit 0x6C .nul s c
  | .nul => stateLit 0x6C .endValue s c
  | .error => (false, s)

/-- The scanner's `eof()`: `true` when the input ended on a complete value. -/
def Scanner.eof (s : Scanner) : Bool :=
  if s.err then false
  else if s.endTop then true
  else (s.run 0x20).2.endTop

/-- The loop of `checkValid`: the bytes are fed to the scanner one by one and
the first `scanError` ends the loop; then `eof()` decides. -/
def checkValid : List UInt8 → Scanner → Bool
  | [], s => s.eof
  | c :: rest, s =>
    match s.run c with
    | (false, _) => false
    | (true, s1) => checkValid rest s1

/-- Go's `json.Valid(data)`. -/
def Valid (data : List UInt8) : Bool := checkValid data Scanner.reset

end Json

/-! ## The KV capability (`server/appservices/kv.go`) -/

namespace Appservices

open Utils

/-- Modelled from the spec: the struct `incoming.Request` of package
`incoming`. A request carries the identity of the acting user and of the
calling App; the empty string stands for an absent identity (spec section 3,
CallRequest). -/
structure Request where
  ActingUserID : String
  SourceAppID : String
  deriving DecidableEq, Repr

/-- Modelled from the spec: the method `Request.RequireActingUser` of package
`incoming`; the absence of an acting user is a permission failure (spec
section 4.4). -/
def Request.RequireActingUser (r : Request) : Option GoError :=
  if r.ActingUserID = "" then some (NewUnauthorizedError "no acting user") else none

/-- Modelled from the spec: the method `Request.RequireFromApp` of package
`incoming`; the absence of a calling App is a permission failure (spec
section 4.4). -/
def Request.RequireFromApp (r : Request) : Option GoError :=
  if r.SourceAppID = "" then some (NewUnauthorizedError "not from an App") else none

/-- Modelled from the spec: the method `Request.Check` of package `incoming`;
it reports the first failure among the given requirements. -/
def Request.Check (_r : Request) : List (Option GoError) → Option GoError
  | [] => none
  | some err :: _ => some err
  | none :: rest => Request.Check _r rest

/-- The `AppKVStore` interface behind `a.store.AppKV`, over a store state `σ`.
Each method receives the state and returns the new state next to its Go
results. The visitor of `List` acts on the same state. -/
structure AppKVStore (σ : Type) where
  Set : Request → String → String → List UInt8 → σ → (Bool × Option GoError) × σ
  Get : Request → String → String → σ → (List UInt8 × Option GoError) × σ
  Delete : Request → String → String → σ → Option GoError × σ
  List : Request → String → (String → σ → Option GoError × σ) → σ → Option GoError × σ

/-- The `store` field of `AppServices`. -/
structure Store (σ : Type) where
  AppKV : AppKVStore σ

/-- The `AppServices` struct, with the field that `kv.go` uses. -/
structure AppServices (σ : Type) where
  store : Store σ

/-- The method `KVSet` of `kv.go`; `pfx` is the key's namespace argument. -/
def AppServices.KVSet {σ : Type} (a : AppServices σ) (r : Request) (pfx id : String)
    (data : List UInt8) (s : σ) : (Bool × Option GoError) × σ :=
  match r.Check [r.RequireActingUser, r.RequireFromApp] with
  | some err => ((false, some err), s)
  | none =>
    if !Json.Valid data then
      ((false, some (NewInvalidError "payload is not valid json")), s)
    else
      a.store.AppKV.Set r pfx id data s

/-- The method `KVGet` of `kv.go`. -/
def AppServices.KVGet {σ : Type} (a : AppServices σ) (r : Request) (pfx id : String)
    (s : σ) : (List UInt8 × Option GoError) × σ :=
  match r.Check [r.RequireActingUser, r.RequireFromApp] with
  | some err => (([], some err), s)
  | none =>
    match a.store.AppKV.Get r pfx id s with
    | ((data, err), s1) =>
      if err.isSome && !(err.any (fun e => errorsIs e ErrNotFound)) then
        (([], err), s1)
      else
        let data := if data.length = 0 then [0x7B, 0x7D] else data
        ((data, none), s1)

/-- The method `KVDelete` of `kv.go`. -/
def AppServices.KVDelete {σ : Type} (a : AppServices σ) (r : Request) (pfx id : String)
    (s : σ) : Option GoError × σ :=
  match r.Check [r.RequireActingUser, r.RequireFromApp] with
  | some err => (some err, s)
  | none => a.store.AppKV.Delete r pfx id s

/-- The method `KVList` of `kv.go`. -/
def AppServices.KVList {σ : Type} (a : AppServices σ) (r : Request) (pfx : String)
    (processf : String → σ → Option GoError × σ) (s : σ) : Option GoError × σ :=
  match r.Check [r.RequireActingUser, r.RequireFromApp] with
  | some err => (some err, s)
  | none => a.store.AppKV.List r pfx processf s

/-- The effective key of a KV entry (spec section 4.4): the App, the acting
user, the namespace and the id. -/
structure KVKey where
  app : String
  user : String
  pfx : String
  id : String
  deriving DecidableEq, Repr

/-- The key under which the request `r` reaches the entry `(pfx, id)`. -/
def kvKey (r : Request) (pfx id : String) : KVKey :=
  { app := r.SourceAppID, user := r.ActingUserID, pfx := pfx, id := id }

/-- Modelled from the spec: the state of the backing store, whose
implementation lies in package `store`. The store is a map from effective keys
to blobs (spec section 3, KV entry), held as an association list. -/
abbrev MapState := List (KVKey × List UInt8)

/-- The blob stored under `k`, if any. -/
def MapState.get (s : MapState) (k : KVKey) : Option (List UInt8) :=
  (s.find? (fun e => decide (e.1 = k))).map (fun e => e.2)

/-- The map without its entry for `k`. -/
def MapState.delete (s : MapState) (k : KVKey) : MapState :=
  s.filter (fun e => !decide (e.1 = k))

/-- The map with `k` bound to `d`. -/
def MapState.set (s : MapState) (k : KVKey) (d : List UInt8) : MapState :=
  (k, d) :: s.delete k

/-- The visitor applied to the given keys in turn; the first error ends the
listing and is returned. -/
def visitKeys (visit : String → MapState → Option GoError × MapState) :
    List String → MapState → Option GoError × MapState
  | [], s => (none, s)
  | k :: rest, s =>
    match visit k s with
    | (some err, s1) => (some err, s1)
    | (none, s1) => visitKeys visit rest s1

/-- Modelled from the spec: the backing store of package `store` as a map
(spec section 4.4).
`Set` binds the effective key, `Get` reports the not-found condition for an
absent key, `Delete` removes the entry and is silent on an absent key, `List`
visits the ids stored under the namespace for this App and user. -/
def mapStore : AppKVStore MapState where
  Set r pfx id data s := ((true, none), s.set (kvKey r pfx id) data)
  Get r pfx id s :=
    match s.get (kvKey r pfx id) with
    | some d => ((d, none), s)
    | none => (([], some ErrNotFound), s)
  Delete r pfx id s := (none, s.delete (kvKey r pfx id))
  List r pfx visit s :=
    visitKeys visit
      ((s.filter (fun e => decide (e.1.app = r.SourceAppID ∧ e.1.user = r.ActingUserID
        ∧ e.1.pfx = pfx))).map (fun e => e.1.id)) s

/-- The KV capability over the map store. -/
def mapServices : AppServices MapState := { store := { AppKV := mapStore } }

/-- The store states that the KV capability can reach from the empty store by
calls of `KVSet` and `KVDelete`, whatever their arguments and outcome. -/
inductive Reachable : MapState → Prop where
  | empty : Reachable []
  | set (r : Request) (pfx id : String) (data : List UInt8) (s : MapState) :
      Reachable s → Reachable (mapServices.KVSet r pfx id data s).2
  | delete (r : Request) (pfx id : String) (s : MapState) :
      Reachable s → Reachable (mapServices.KVDelete r pfx id s).2

/-- A sample store that only counts the calls it receives: every method adds
one to the state; `Get` reports the not-found condition, `List` visits one
key. -/
def countingStore : AppKVStore Nat where
  Set _ _ _ _ n := ((true, none), n + 1)
  Get _ _ _ n := (([], some (.wrap "no such key" ErrNotFound)), n + 1)
  Delete _ _ _ n := (none, n + 1)
  List _ _ visit n := visit "key" (n + 1)

/-- A sample store whose `Get` fails with an error that is not the not-found
condition. -/
def brokenStore : AppKVStore Nat where
  Set _ _ _ _ n := ((false, some (.sentinel "connection lost")), n + 1)
  Get _ _ _ n := (([], some (.sentinel "connection lost")), n + 1)
  Delete _ _ _ n := (some (.sentinel "connection lost"), n + 1)
  List _ _ _ n := (some (.sentinel "connection lost"), n + 1)

/-- A sample request of the user "user" from the App "app". -/
def sampleRequest : Request := { ActingUserID := "user", SourceAppID := "app" }

/-- A sample request from the App "app" without an acting user. -/
def anonymousRequest : Request := { ActingUserID := "", SourceAppID := "app" }

/-- A sample visitor that adds one hundred to the state. -/
def sampleVisitor : String → Nat → Option GoError × Nat :=
  fun _ n => (none, n + 100)

/-- The UTF-8 bytes of a string, `[]byte(s)`. -/
def bytesOf (s : String) : List UInt8 := s.data.flatMap String.utf8EncodeChar

end Appservices

/-! ## URL escaping (Go's `net/url`, called by `pathFromName`) -/

namespace Url

open Utils

/-- The byte of an ASCII character, as in a Go byte constant such as `'-'`. -/
def byte (c : Char) : UInt8 := UInt8.ofNat c.toNat

/-- The `encoding` modes of `net/url`. -/
inductive Encoding where
  | encodePath
  | encodePathSegment
  | encodeHost
  | encodeZone
  | encodeUserPassword
  | encodeQueryComponent
  | encodeFragment
  deriving DecidableEq, Repr

/-- The first test of `shouldEscape`: the unreserved alphanumeric bytes. -/
def isAlnum (c : UInt8) : Bool :=
  (byte 'a' ≤ c && c ≤ byte 'z') || (byte 'A' ≤ c && c ≤ byte 'Z')
    || (byte '0' ≤ c && c ≤ byte '9')

/-- The bytes that `shouldEscape` lets through in the host and zone modes:
the sub-delimiters, `:`, `[`, `]`, `<`, `>` and the double quote. -/
def hostAllowed (c : UInt8) : Bool :=
  c == byte '!' || c == byte '$' || c == byte '&' || c == 0x27 || c == byte '('
    || c == byte ')' || c == byte '*' || c == byte '+' || c == byte ',' || c == byte ';'
    || c == byte '=' || c == byte ':' || c == byte '[' || c == byte ']' || c == byte '<'
    || c == byte '>' || c == 0x22

/-- The unreserved marks of `shouldEscape`: `-`, `_`, `.`, `~`. -/
def isMark (c : UInt8) : Bool :=
  c == byte '-' || c == byte '_' || c == byte '.' || c == byte '~'

/-- The reserved bytes of `shouldEscape`:
`$`, `&`, `+`, `,`, `/`, `:`, `;`, `=`, `?`, `@`. -/
def isReserved (c : UInt8) : Bool :=
  c == byte '$' || c == byte '&' || c == byte '+' || c == byte ',' || c == byte '/'
    || c == byte ':' || c == byte ';' || c == byte '=' || c == byte '?' || c == byte '@'

/-- Go's `shouldEscape(c, mode)`: whether the byte must be percent-encoded
in the given part of a URL. -/
def shouldEscape (c : UInt8) (mode : Encoding) : Bool :=
  if isAlnum c then false
  else if (mode == .encodeHost || mode == .encodeZone) && hostAllowed c then false
  else if isMark c then false
  else if isReserved c && mode == .encodePath then c == byte '?'
  else if isReserved c && mode == .encodePathSegment then
    c == byte '/' || c == byte ';' || c == byte ',' || c == byte '?'
  else if isReserved c && mode == .encodeUserPassword then
    c == byte '@' || c == byte '/' || c == byte '?' || c == byte ':'
  else if isReserved c && mode == .encodeQueryComponent then true
  else if isReserved c && mode == .encodeFragment then false
  else if mode == .encodeFragment
      && (c == byte '!' || c == byte '(' || c == byte ')' || c == byte '*') then false
  else true

/-- The constant `upperhex` of `net/url`, `"0123456789ABCDEF"`. -/
def upperhexDigits : List UInt8 := "0123456789ABCDEF".data.map byte

/-- The digit `upperhex[n]`. -/
def upperhex (n : UInt8) : UInt8 := upperhexDigits.getD n.toNat 0

/-- Go's `ishex(c)`. -/
def ishex (c : UInt8) : Bool :=
  (byte '0' ≤ c && c ≤ byte '9') || (byte 'a' ≤ c && c ≤ byte 'f')
    || (byte 'A' ≤ c && c ≤ byte 'F')

/-- Go's `unhex(c)`. -/
def unhex (c : UInt8) : UInt8 :=
  if byte '0' ≤ c && c ≤ byte '9' then c - byte '0'
  else if byte 'a' ≤ c && c ≤ byte 'f' then c - byte 'a' + 10
  else if byte 'A' ≤ c && c ≤ byte 'F' then c - byte 'A' + 10
  else 0

/-- What `escape` writes for one byte: `+` for a space in a query component,
`%XX` for a byte that must be escaped, the byte itself otherwise. -/
def escapeByte (mode : Encoding) (c : UInt8) : List UInt8 :=
  if c == byte ' ' && mode == .encodeQueryComponent then [byte '+']
  else if shouldEscape c mode then [byte '%', upperhex (c >>> 4), upperhex (c &&& 15)]
  else [c]

/-- Go's `escape(s, mode)`. -/
def escape (s : List UInt8) (mode : Encoding) : List UInt8 :=
  s.flatMap (escapeByte mode)

/-- The error `EscapeError` of `net/url`. -/
def EscapeError : GoError := .sentinel "invalid URL escape"

/-- The error `InvalidHostError` of `net/url`. -/
def InvalidHostError : GoError := .sentinel "invalid character in host name"

/-- The first loop of `unescape`: the `%` escapes are counted and checked,
and in the host and zone modes so are the other bytes. The result is the
error, if any. -/
def unescapeCheck (mode : Encoding) : List UInt8 → Option GoError
  | [] => none
  | c :: rest =>
    if c == byte '%' then
      match rest with
      | a :: b :: rest2 =>
        if !ishex a || !ishex b then some EscapeError
        else if mode == .encodeHost && unhex a < 8
            && !(a == byte '2' && b == byte '5') then some EscapeError
        else if mode == .encodeZone && !(a == byte '2' && b == byte '5')
            && (unhex a <<< 4 ||| unhex b) != byte ' '
            && shouldEscape (unhex a <<< 4 ||| unhex b) .encodeHost then some EscapeError
        else unescapeCheck mode rest2
      | _ => some EscapeError
    else if c == byte '+' then unescapeCheck mode rest
    else if (mode == .encodeHost || mode == .encodeZone) && c < 0x80
        && shouldEscape c .encodeHost then some InvalidHostError
    else unescapeCheck mode rest

/-- The second loop of `unescape`, which runs on a checked string: `%XX` is
decoded, `+` is a space in a query component, other bytes are copied. -/
def unescapeDecode (mode : Encoding) : List UInt8 → List UInt8
  | [] => []
  | c :: rest =>
    if c == byte '%' then
      match rest with
      | a :: b :: rest2 => (unhex a <<< 4 ||| unhex b) :: unescapeDecode mode rest2
      | _ => c :: rest
    else if c == byte '+' then
      (if mode == .encodeQueryComponent then byte ' ' else byte '+') :: unescapeDecode mode rest
    else c :: unescapeDecode mode rest

/-- Go's `unescape(s, mode)`: the decoded string and no error, or the empty
string and the error of the check. -/
def unescape (s : List UInt8) (mode : Encoding) : List UInt8 × Option GoError :=
  match unescapeCheck mode s with
  | some err => ([], some err)
  | none => (unescapeDecode mode s, none)

/-- Go's `url.PathEscape(s)`. -/
def PathEscape (s : List UInt8) : List UInt8 := escape s .encodePathSegment

/-- Go's `url.PathUnescape(s)`. -/
def PathUnescape (s : List UInt8) : List UInt8 × Option GoError :=
  unescape s .encodePathSegment

end Url

namespace Goapp

/-- The function `pathFromName` of `app.go`, as the bytes of the string it
returns. -/
def pathFromName (name : String) : List UInt8 :=
  Url.byte '/' :: Url.PathEscape (Appservices.bytesOf (locationFromName name))

end Goapp

/-! ## URL parsing (Go's `net/url`, called by `RunHTTP` and `NewTestServer`) -/

namespace Url

open Utils

/-- Go's `strings.HasPrefix(s, p)`. -/
def startsWith (s p : List UInt8) : Bool := p.isPrefixOf s

/-- Go's `strings.HasSuffix(s, p)`. -/
def endsWith (s p : List UInt8) : Bool := p.isSuffixOf s

/-- Go's `strings.IndexByte(s, c)`; `none` is `-1`. -/
def indexByte (s : List UInt8) (c : UInt8) : Option Nat :=
  if s.indexOf c < s.length then some (s.indexOf c) else none

/-- Go's `strings.LastIndexByte(s, c)`; `none` is `-1`. -/
def lastIndexByte (s : List UInt8) (c : UInt8) : Option Nat :=
  (indexByte s.reverse c).map (fun j => s.length - 1 - j)

/-- Go's `strings.Index(s, sub)`; `none` is `-1`. -/
def indexSub : List UInt8 → List UInt8 → Option Nat
  | [], sub => if sub.isEmpty then some 0 else none
  | c :: rest, sub =>
    if sub.isPrefixOf (c :: rest) then some 0 else (indexSub rest sub).map (fun i => i + 1)

/-- Go's `strings.Cut(s, sep)` for a separator of one byte: the parts before
and after its first occurrence, and whether it occurs; without it, the whole
string and the empty string. -/
def cut (s : List UInt8) (sep : UInt8) : List UInt8 × List UInt8 × Bool :=
  match indexByte s sep with
  | some i => (s.take i, s.drop (i + 1), true)
  | none => (s, [], false)

/-- Go's `strings.ToLower` on a scheme, which holds ASCII letters, digits,
`+`, `-` and `.` only. -/
def toLower (s : List UInt8) : List UInt8 :=
  s.map (fun c => if byte 'A' ≤ c && c ≤ byte 'Z' then c + 0x20 else c)

/-- The struct `url.Userinfo`. -/
structure Userinfo where
  username : List UInt8
  password : List UInt8
  passwordSet : Bool
  deriving DecidableEq, Repr

/-- The struct `url.URL`. -/
structure URL where
  Scheme : List UInt8
  Opaque : List UInt8
  User : Option Userinfo
  Host : List UInt8
  Path : List UInt8
  RawPath : List UInt8
  ForceQuery : Bool
  RawQuery : List UInt8
  Fragment : List UInt8
  RawFragment : List UInt8
  deriving DecidableEq, Repr

/-- The zero value of `url.URL`, what `new(URL)` points to. -/
def URL.zero : URL :=
  { Scheme := [], Opaque := [], User := none, Host := [], Path := [], RawPath := [],
    ForceQuery := false, RawQuery := [], Fragment := [], RawFragment := [] }

/-- Go's `stringContainsCTLByte(s)`. -/
def stringContainsCTLByte (s : List UInt8) : Bool :=
  s.any (fun b => b < byte ' ' || b == 0x7F)

/-- The loop of `getScheme`, at index `i` with the bytes from `i` on. -/
def getSchemeLoop (rawURL : List UInt8) :
    Nat → List UInt8 → List UInt8 × List UInt8 × Option GoError
  | _, [] => ([], rawURL, none)
  | i, c :: rest =>
    if (byte 'a' ≤ c && c ≤ byte 'z') || (byte 'A' ≤ c && c ≤ byte 'Z') then
      getSchemeLoop rawURL (i + 1) rest
    else if (byte '0' ≤ c && c ≤ byte '9') || c == byte '+' || c == byte '-'
        || c == byte '.' then
      if i == 0 then ([], rawURL, none) else getSchemeLoop rawURL (i + 1) rest
    else if c == byte ':' then
      if i == 0 then ([], [], some (.sentinel "missing protocol scheme"))
      else (rawURL.take i, rest, none)
    else ([], rawURL, none)

/-- Go's `getScheme(rawURL)`: the scheme, the rest, and the error. -/
def getScheme (rawURL : List UInt8) : List UInt8 × List UInt8 × Option GoError :=
  getSchemeLoop rawURL 0 rawURL

/-- Go's `validOptionalPort(port)`: empty, or a colon followed by digits. -/
def validOptionalPort (port : List UInt8) : Bool :=
  match port with
  | [] => true
  | c :: rest => c == byte ':' && rest.all (fun b => !(b < byte '0' || b > byte '9'))

/-- Go's `validUserinfo(s)`. -/
def validUserinfo (s : List UInt8) : Bool :=
  s.all (fun r => isAlnum r || r == byte '-' || r == byte '.' || r == byte '_'
    || r == byte ':' || r == byte '~' || r == byte '!' || r == byte '$' || r == byte '&'
    || r == 0x27 || r == byte '(' || r == byte ')' || r == byte '*' || r == byte '+'
    || r == byte ',' || r == byte ';' || r == byte '=' || r == byte '%' || r == byte '@')

/-- The branch of `parseHost` for a host with a zone, `[...%25...]...`: the
three parts are unescaped in turn and joined. -/
def parseHostZone (host : List UInt8) (zone i : Nat) : List UInt8 × Option GoError :=
  match unescape (host.take zone) .encodeHost with
  | (_, some err) => ([], some err)
  | (host1, none) =>
    match unescape ((host.take i).drop zone) .encodeZone with
    | (_, some err) => ([], some err)
    | (host2, none) =>
      match unescape (host.drop i) .encodeHost with
      | (_, some err) => ([], some err)
      | (host3, none) => (host1 ++ host2 ++ host3, none)

/-- Go's `parseHost(host)`. -/
def parseHost (host : List UInt8) : List UInt8 × Option GoError :=
  if startsWith host [byte '['] then
    match lastIndexByte host (byte ']') with
    | none => ([], some (.sentinel "missing ']' in host"))
    | some i =>
      if !validOptionalPort (host.drop (i + 1)) then
        ([], some (.sentinel "invalid port after host"))
      else
        match indexSub (host.take i) [byte '%', byte '2', byte '5'] with
        | some zone => parseHostZone host zone i
        | none => unescape host .encodeHost
  else
    match lastIndexByte host (byte ':') with
    | some i =>
      if !validOptionalPort (host.drop i) then
        ([], some (.sentinel "invalid port after host"))
      else unescape host .encodeHost
    | none => unescape host .encodeHost

/-- The second half of `parseAuthority`: the user information `userinfo` that
stands before the `@`. -/
def parseUserinfo (userinfo : List UInt8) : Option Userinfo × Option GoError :=
  if !validUserinfo userinfo then (none, some (.sentinel "net/url: invalid userinfo"))
  else if !userinfo.contains (byte ':') then
    match unescape userinfo .encodeUserPassword with
    | (_, some err) => (none, some err)
    | (u, none) => (some { username := u, password := [], passwordSet := false }, none)
  else
    match unescape (cut userinfo (byte ':')).1 .encodeUserPassword with
    | (_, some err) => (none, some err)
    | (username, none) =>
      match unescape (cut userinfo (byte ':')).2.1 .encodeUserPassword with
      | (_, some err) => (none, some err)
      | (password, none) =>
        (some { username := username, password := password, passwordSet := true }, none)

/-- Go's `parseAuthority(authority)`: the user, the host, and the error. -/
def parseAuthority (authority : List UInt8) :
    Option Userinfo × List UInt8 × Option GoError :=
  match lastIndexByte authority (byte '@') with
  | none =>
    match parseHost authority with
    | (_, some err) => (none, [], some err)
    | (host, none) => (none, host, none)
  | some i =>
    match parseHost (authority.drop (i + 1)) with
    | (_, some err) => (none, [], some err)
    | (host, none) =>
      match parseUserinfo (authority.take i) with
      | (_, some err) => (none, [], some err)
      | (user, none) => (user, host, none)

/-- Go's `(*URL).setPath(p)`. -/
def URL.setPath (u : URL) (p : List UInt8) : Except GoError URL :=
  match unescape p .encodePath with
  | (_, some err) => .error err
  | (path, none) =>
    .ok { u with Path := path, RawPath := if p = escape path .encodePath then [] else p }

/-- Go's `(*URL).setFragment(f)`. -/
def URL.setFragment (u : URL) (f : List UInt8) : Except GoError URL :=
  match unescape f .encodeFragment with
  | (_, some err) => .error err
  | (frag, none) =>
    .ok { u with Fragment := frag,
                 RawFragment := if f = escape frag .encodeFragment then [] else f }

/-- The end of `parse`: the authority, if `rest` starts with `//`, and the
path. -/
def parseAuthorityAndPath (url : URL) (rest : List UInt8) (viaRequest : Bool) :
    Except GoError URL :=
  if (url.Scheme != [] || (!viaRequest && !startsWith rest [byte '/', byte '/', byte '/']))
      && startsWith rest [byte '/', byte '/'] then
    let authority := rest.drop 2
    let (authority, rest) :=
      match indexByte authority (byte '/') with
      | some i => (authority.take i, authority.drop i)
      | none => (authority, [])
    match parseAuthority authority with
    | (_, _, some err) => .error err
    | (user, host, none) => URL.setPath { url with User := user, Host := host } rest
  else URL.setPath url rest

/-- Go's `parse(rawURL, viaRequest)`. -/
def parse (rawURL : List UInt8) (viaRequest : Bool) : Except GoError URL :=
  if stringContainsCTLByte rawURL then
    .error (.sentinel "net/url: invalid control character in URL")
  else if rawURL = [] && viaRequest then .error (.sentinel "empty url")
  else if rawURL = [byte '*'] then .ok { URL.zero with Path := [byte '*'] }
  else
    match getScheme rawURL with
    | (_, _, some err) => .error err
    | (scheme, rest, none) =>
      let url := { URL.zero with Scheme := toLower scheme }
      let (url, rest) :=
        if endsWith rest [byte '?'] && rest.count (byte '?') == 1 then
          ({ url with ForceQuery := true }, rest.dropLast)
        else ({ url with RawQuery := (cut rest (byte '?')).2.1 }, (cut rest (byte '?')).1)
      if !startsWith rest [byte '/'] then
        if url.Scheme != [] then .ok { url with Opaque := rest }
        else if viaRequest then .error (.sentinel "invalid URI for request")
        else if (cut rest (byte '/')).1.contains (byte ':') then
          .error (.sentinel "first path segment in URL cannot contain colon")
        else parseAuthorityAndPath url rest viaRequest
      else parseAuthorityAndPath url rest viaRequest

/-- Go's `url.Parse(rawURL)`: the fragment is cut off and set after the rest
has been parsed; an error is wrapped as a parse error. -/
def Parse (rawURL : List UInt8) : Except GoError URL :=
  match parse (cut rawURL (byte '#')).1 false with
  | .error err => .error (.wrap "parse" err)
  | .ok url =>
    if (cut rawURL (byte '#')).2.1 = [] then .ok url
    else
      match url.setFragment (cut rawURL (byte '#')).2.1 with
      | .error err => .error (.wrap "parse" err)
      | .ok url => .ok url

/-- Go's `splitHostPort(hostPort)`: the host without brackets, and the port
after the last colon when digits follow it. -/
def splitHostPort (hostPort : List UInt8) : List UInt8 × List UInt8 :=
  let (host, port) :=
    match lastIndexByte hostPort (byte ':') with
    | some colon =>
      if validOptionalPort (hostPort.drop colon) then
        (hostPort.take colon, hostPort.drop (colon + 1))
      else (hostPort, [])
    | none => (hostPort, [])
  if startsWith host [byte '['] && endsWith host [byte ']'] then
    ((host.drop 1).dropLast, port)
  else (host, port)

/-- Go's `(*URL).Port()`. -/
def URL.Port (u : URL) : List UInt8 := (splitHostPort u.Host).2

/-- The string of a run of ASCII bytes, such as the digits of a port. -/
def stringOf (bs : List UInt8) : String := String.mk (bs.map (fun b => Char.ofNat b.toNat))

end Url

/-! ## Serving modes (`apps/goapp/app.go`, lines 140-196) -/

namespace Goapp

open Utils Apps

/-- The logger that `utils.NewTestLogger()` returns. -/
def testLogger : Logger := { id := 1 }

/-- The logger that `utils.MustMakeCommandLogger(zapcore.DebugLevel)` returns. -/
def commandLogger : Logger := { id := 2 }

/-- The lines `if app.Manifest.Deploy.HTTP == nil { ... = &apps.HTTP{} }`. -/
def App.defaultHTTP {B : Type} (app : App B) : App B :=
  match app.Manifest.Deploy.HTTP with
  | none =>
    { app with Manifest := { app.Manifest with
        Deploy := { app.Manifest.Deploy with HTTP := some { RootURL := "" } } } }
  | some _ => app

/-- The value of `app.Manifest.Deploy.HTTP.RootURL`; it is read after
`Deploy.HTTP` has been set, the empty string stands for a `nil` pointer. -/
def App.rootURL {B : Type} (app : App B) : String :=
  match app.Manifest.Deploy.HTTP with
  | some h => h.RootURL
  | none => ""

/-- The assignment `app.Manifest.Deploy.HTTP.RootURL = v`, made after
`Deploy.HTTP` has been set. -/
def App.setRootURL {B : Type} (app : App B) (v : String) : App B :=
  match app.Manifest.Deploy.HTTP with
  | some h =>
    { app with Manifest := { app.Manifest with
        Deploy := { app.Manifest.Deploy with HTTP := some { h with RootURL := v } } } }
  | none => app

/-- The `httptest.Server` that `NewTestServer` returns: its URL and the
handler it serves. -/
structure TestServer where
  URL : String
  Handler : Router
  deriving DecidableEq, Repr

/-- The method `NewTestServer` of `app.go`. `serverURL` is the URL that
`httptest.NewServer` gives the server, for the local port the system assigned.
The result is the App as the method leaves it and the server; a failure is the
panic of `u.Port()` on the `nil` URL of a failed `url.Parse`. -/
def App.NewTestServer {B : Type} (app : App B) (serverURL : String) :
    Except GoError (App B × TestServer) :=
  let app := if app.log.isNone then { app with log := some testLogger } else app
  let app := { app with Mode := DeployHTTP }
  let app := app.defaultHTTP
  let appServer : TestServer := { URL := serverURL, Handler := app.Router }
  let rootURL := appServer.URL
  let app := app.setRootURL rootURL
  match Url.Parse (Appservices.bytesOf rootURL) with
  | .error _ => .error (.sentinel "invalid memory address or nil pointer dereference")
  | .ok _ => .ok (app, appServer)

/-- The point that `RunHTTP` reaches when it does not panic before: the App,
the resolved port, and the address passed to `http.ListenAndServe`. -/
structure Serving (B : Type) where
  app : App B
  portStr : String
  listen : String
  deriving DecidableEq, Repr

/-- The lines of `RunHTTP` that resolve the port, given the value of `PORT`:
the port of the root URL, or "8080", when `PORT` is empty; a failure is the
`panic(err)` after `url.Parse`. -/
def resolvePort {B : Type} (app : App B) (portStr : String) : Except GoError String :=
  if portStr = "" then
    match Url.Parse (Appservices.bytesOf app.rootURL) with
    | .error err => .error err
    | .ok u =>
      let portStr := Url.stringOf u.Port
      .ok (if portStr = "" then "8080" else portStr)
  else .ok portStr

/-- The method `RunHTTP` of `app.go`, up to the call of
`http.ListenAndServe(listen, nil)`, which does not return while the App is
served. `getenv` is `os.Getenv`. A failure is a panic. -/
def App.RunHTTP {B : Type} (app : App B) (getenv : String → String) :
    Except GoError (Serving B) :=
  let app := if app.log.isNone then { app with log := some commandLogger } else app
  let app := { app with Mode := DeployHTTP }
  let app := app.defaultHTTP
  let rootURL := getenv "ROOT_URL"
  let app := if rootURL ≠ "" then app.setRootURL rootURL else app
  match resolvePort app (getenv "PORT") with
  | .error err => .error err
  | .ok portStr =>
    let app :=
      if app.rootURL = "" then app.setRootURL ("http://localhost:" ++ portStr) else app
    .ok { app := app, portStr := portStr, listen := ":" ++ portStr }

/-- A sample environment that sets `ROOT_URL` and `PORT`; the empty string is
an unset variable. -/
def sampleEnv (rootURL port : String) : String → String :=
  fun name => if name = "ROOT_URL" then rootURL else if name = "PORT" then port else ""

end Goapp

namespace Goapp

/-- The configured root URL: the manifest's root URL after the override by
`ROOT_URL` has been applied, that is `ROOT_URL` when it is not empty and the
manifest's existing root URL otherwise. -/
def configuredRootURL {B : Type} (app : App B) (getenv : String → String) : String :=
  if getenv "ROOT_URL" ≠ "" then getenv "ROOT_URL" else app.rootURL

/-- A sample App whose manifest has the given root URL. -/
def sampleAppAt (rootURL : String) : App Nat :=
  { sampleApp with Manifest := { sampleApp.Manifest with
      Deploy := { HTTP := some { RootURL := rootURL } } } }

end Goapp

/-! ## The AWS commands of `appsctl` (`cmd/appsctl/aws.go`) -/

namespace Appsctl

open Utils Apps

/-- Go's `errors.Errorf(format, arg)` for a format that ends in `%s`: the
error whose text is the format's text followed by the argument. -/
def Errorf (text arg : String) : GoError := .sentinel (text ++ arg)

/-- The struct `upaws.InitParams`, with the fields that `aws.go` sets. -/
structure InitParams where
  Bucket : String
  User : String
  Group : String
  Policy : String
  ExecuteRole : String
  ShouldCreate : Bool
  ShouldCreateAccessKey : Bool
  deriving DecidableEq, Repr

/-- The result of `upaws.InitializeAWS`, with the fields that `aws.go` reads. -/
structure InitResult where
  UserARN : String
  GroupARN : String
  PolicyARN : String
  Bucket : String
  AccessKeyID : String
  AccessKeySecret : String
  deriving DecidableEq, Repr

/-- The struct `upaws.DeployAppParams`, with the fields that `aws.go` sets. -/
structure DeployAppParams where
  Bucket : String
  InvokePolicyName : String
  ExecuteRoleName : String
  ShouldUpdate : Bool
  Environment : List (String × String)
  deriving DecidableEq, Repr

/-- The result of `upaws.DeployAppFromFile`, with the fields that `aws.go`
reads. -/
structure DeployAppData where
  Manifest : Manifest
  LambdaARNs : List String
  StaticARNs : List String
  ExecuteRoleARN : String
  ExecutePolicyARN : String
  InvokePolicyARN : String
  InvokePolicyDoc : String
  deriving DecidableEq, Repr

/-- The flag variables of the commands, set by cobra from the command line. -/
structure Flags where
  shouldCreate : Bool
  shouldCreateAccessKey : Bool
  userName : String
  policyName : String
  groupName : String
  invokePolicyName : String
  executeRoleName : String
  install : Bool
  shouldUpdate : Bool
  environment : List (String × String)
  deriving DecidableEq, Repr

/-- What `aws.go` uses and does not declare: the constants and functions of
package `upaws`, `updateMattermost` and the logger `log` of package `main`,
`fmt.Printf` and `utils.Pretty`. They are taken as given. `C` is the type
`upaws.Client`; `σ` is the state of everything outside the process (the cloud
account, the Mattermost server, the standard output), which the functions that
act on it receive and return. -/
structure Deps (C σ : Type) where
  RegionEnvVar : String
  AccessEnvVar : String
  SecretEnvVar : String
  DeployAccessEnvVar : String
  DeploySecretEnvVar : String
  DefaultPolicyName : String
  DefaultExecuteRoleName : String
  DeployAWSLambda : DeployType
  log : Goapp.Logger
  logWith : Goapp.Logger → String → String → Goapp.Logger
  S3BucketName : (String → String) → String
  MakeClient : String → String → String → Goapp.Logger → σ → Except GoError C × σ
  InitializeAWS : C → Goapp.Logger → InitParams → σ → Except GoError InitResult × σ
  DeployAppFromFile : C → String → Goapp.Logger → DeployAppParams → σ →
    Except GoError DeployAppData × σ
  CleanAWS : C → String → Goapp.Logger → σ → Option GoError × σ
  updateMattermost : Manifest → DeployType → Bool → σ → Option GoError × σ
  Printf : String → List String → σ → σ
  Pretty : DeployAppData → String

/-- The function `makeDeployAWSClient` of `aws.go`; `getenv` is `os.Getenv`. -/
def makeDeployAWSClient {C σ : Type} (d : Deps C σ) (getenv : String → String) (w : σ) :
    Except GoError C × σ :=
  let region := getenv d.RegionEnvVar
  if region = "" then
    (.error (Errorf "no AWS region was provided. Please set " d.RegionEnvVar), w)
  else
    let accessKey := getenv d.DeployAccessEnvVar
    if accessKey = "" then
      (.error (Errorf "no AWS access key was provided. Please set " d.DeployAccessEnvVar), w)
    else
      let secretKey := getenv d.DeploySecretEnvVar
      if secretKey = "" then
        (.error (Errorf "no AWS secret key was provided. Please set " d.DeploySecretEnvVar), w)
      else
        d.MakeClient accessKey secretKey region (d.logWith d.log "purpose" "appsctl deploy") w

/-- The lines of `awsInitCmd` that print the result of `InitializeAWS`. -/
def printInit {C σ : Type} (d : Deps C σ) (flags : Flags) (out : InitResult) (w : σ) : σ :=
  let w := d.Printf "Ready to deploy AWS Lambda Mattermost Apps!\n\n" [] w
  let w := d.Printf "User:\t%q\n" [out.UserARN] w
  let w := d.Printf "Group:\t%q\n" [out.GroupARN] w
  let w := d.Printf "Policy:\t%q\n" [out.PolicyARN] w
  let w := d.Printf "Bucket:\t%q\n" [out.Bucket] w
  if flags.shouldCreateAccessKey then
    let w := d.Printf
      "\nPlease store the Access Key securely, it will not be viewable again.\n\n" [] w
    let w := d.Printf "export %s='%s'\n" [d.AccessEnvVar, out.AccessKeyID] w
    d.Printf "export %s='%s'\n" [d.SecretEnvVar, out.AccessKeySecret] w
  else w

/-- The `RunE` function of `awsInitCmd`. -/
def awsInitCmd {C σ : Type} (d : Deps C σ) (getenv : String → String) (flags : Flags)
    (w : σ) : Option GoError × σ :=
  match makeDeployAWSClient d getenv w with
  | (.error err, w) => (some err, w)
  | (.ok asDeploy, w) =>
    match d.InitializeAWS asDeploy d.log
        { Bucket := d.S3BucketName getenv, User := flags.userName, Group := flags.groupName,
          Policy := flags.policyName, ExecuteRole := flags.executeRoleName,
          ShouldCreate := flags.shouldCreate,
          ShouldCreateAccessKey := flags.shouldCreateAccessKey } w with
    | (.error err, w) => (some err, w)
    | (.ok out, w) => (none, printInit d flags out w)

/-- The `RunE` function of `awsCleanCmd`. -/
def awsCleanCmd {C σ : Type} (d : Deps C σ) (getenv : String → String) (w : σ) :
    Option GoError × σ :=
  match makeDeployAWSClient d getenv w with
  | (.error err, w) => (some err, w)
  | (.ok asDeploy, w) =>
    let accessKeyID := getenv d.AccessEnvVar
    if accessKeyID = "" then
      (some (Errorf "no AWS access key was provided. Please set " d.AccessEnvVar), w)
    else d.CleanAWS asDeploy accessKeyID d.log w

/-- The lines of `awsDeployCmd` that print the result of the deployment. -/
def printDeploy {C σ : Type} (d : Deps C σ) (flags : Flags) (out : DeployAppData) (w : σ) :
    σ :=
  let w := d.Printf "\n'%s' is now deployed to AWS.\n" [out.Manifest.DisplayName] w
  let w := d.Printf
    "Created/updated %v functions in AWS Lambda, %v static assets in S3\n\n"
    [toString out.LambdaARNs.length, toString out.StaticARNs.length] w
  let w := d.Printf "Execute role:\t%s\n" [out.ExecuteRoleARN] w
  let w := d.Printf "Execute policy:\t%s\n" [out.ExecutePolicyARN] w
  let w := d.Printf "Invoke policy:\t%s\n\n" [out.InvokePolicyARN] w
  let w := d.Printf "Invoke policy document:\n%s\n" [out.InvokePolicyDoc] w
  let w := d.Printf "\n" [] w
  if !flags.install then
    let w := d.Printf "You can now install it in Mattermost using:\n" [] w
    d.Printf "  /apps install listed %s\n\n" [out.Manifest.AppID] w
  else w

/-- The `RunE` function of `awsDeployCmd`; `bundle` is `args[0]`, the one
argument that `cobra.ExactArgs(1)` admits. -/
def awsDeployCmd {C σ : Type} (d : Deps C σ) (getenv : String → String) (flags : Flags)
    (bundle : String) (w : σ) : Option GoError × σ :=
  match makeDeployAWSClient d getenv w with
  | (.error err, w) => (some err, w)
  | (.ok asDeploy, w) =>
    let bucket := d.S3BucketName getenv
    match d.DeployAppFromFile asDeploy bundle d.log
        { Bucket := bucket, InvokePolicyName := flags.invokePolicyName,
          ExecuteRoleName := flags.executeRoleName, ShouldUpdate := flags.shouldUpdate,
          Environment := flags.environment } w with
    | (.error err, w) => (some err, w)
    | (.ok out, w) =>
      match d.updateMattermost out.Manifest d.DeployAWSLambda flags.install w with
      | (some err, w) => (some err, w)
      | (none, w) => (none, printDeploy d flags out w)

/-- The `RunE` function of `awsTestDeployCmd`; `bundlePath` is `args[0]`. -/
def awsTestDeployCmd {C σ : Type} (d : Deps C σ) (getenv : String → String)
    (bundlePath : String) (w : σ) : Option GoError × σ :=
  match makeDeployAWSClient d getenv w with
  | (.error err, w) => (some err, w)
  | (.ok asDeploy, w) =>
    match d.DeployAppFromFile asDeploy bundlePath d.log
        { Bucket := d.S3BucketName getenv, InvokePolicyName := d.DefaultPolicyName,
          ExecuteRoleName := d.DefaultExecuteRoleName, ShouldUpdate := true,
          Environment := [] } w with
    | (.error err, w) => (some err, w)
    | (.ok out, w) => (none, d.Printf "Success!\n\n%s\n" [d.Pretty out] w)

/-- The first configuration error of `makeDeployAWSClient` in an environment
where the region, the deploy access key or the deploy secret key is missing. -/
def missingDeployVar {C σ : Type} (d : Deps C σ) (getenv : String → String) : GoError :=
  if getenv d.RegionEnvVar = "" then
    Errorf "no AWS region was provided. Please set " d.RegionEnvVar
  else if getenv d.DeployAccessEnvVar = "" then
    Errorf "no AWS access key was provided. Please set " d.DeployAccessEnvVar
  else Errorf "no AWS secret key was provided. Please set " d.DeploySecretEnvVar

/-- A sample of what `aws.go` uses: the client is a number, the outside state
counts the calls of the control plane, and every call succeeds. -/
def sampleDeps : Deps Nat Nat where
  RegionEnvVar := "MM_APPS_AWS_REGION"
  AccessEnvVar := "MM_APPS_AWS_ACCESS_KEY"
  SecretEnvVar := "MM_APPS_AWS_SECRET_KEY"
  DeployAccessEnvVar := "MM_APPS_DEPLOY_AWS_ACCESS_KEY"
  DeploySecretEnvVar := "MM_APPS_DEPLOY_AWS_SECRET_KEY"
  DefaultPolicyName := "mattermost-apps-invoke-policy"
  DefaultExecuteRoleName := "mattermost-apps-execute-lambda-role"
  DeployAWSLambda := "aws_lambda"
  log := { id := 0 }
  logWith l _ _ := l
  S3BucketName _ := "bucket"
  MakeClient _ _ _ _ w := (.ok 1, w + 1)
  InitializeAWS _ _ p w :=
    (.ok { UserARN := p.User, GroupARN := p.Group, PolicyARN := p.Policy, Bucket := p.Bucket,
           AccessKeyID := "", AccessKeySecret := "" }, w + 1)
  DeployAppFromFile _ _ _ _ w := (.error (.sentinel "no such bundle"), w + 1)
  CleanAWS _ _ _ w := (none, w + 1)
  updateMattermost _ _ _ w := (none, w + 1)
  Printf _ _ w := w
  Pretty _ := ""

/-- A sample environment with the region and the deploy secret key set and the
deploy access key missing. -/
def sampleAwsEnv : String → String :=
  fun name =>
    if name = "MM_APPS_AWS_REGION" then "us-east-1"
    else if name = "MM_APPS_DEPLOY_AWS_SECRET_KEY" then "secret"
    else ""

/-- A sample environment with the region and both deploy keys set and the
invoke access key missing. -/
def sampleDeployEnv : String → String :=
  fun name =>
    if name = "MM_APPS_AWS_REGION" then "us-east-1"
    else if name = "MM_APPS_DEPLOY_AWS_ACCESS_KEY" then "access"
    else if name = "MM_APPS_DEPLOY_AWS_SECRET_KEY" then "secret"
    else ""

/-- Sample values of the flag variables. -/
def sampleFlags : Flags :=
  { shouldCreate := true, shouldCreateAccessKey := false, userName := "user",
    policyName := "policy", groupName := "group", invokePolicyName := "policy",
    executeRoleName := "role", install := false, shouldUpdate := false, environment := [] }

end Appsctl

namespace Goapp

/-! ## Properties of location derivation -/

theorem foldl_push_data (f : Char → Char) (l : List Char) (b : String) :
    (l.foldl (fun b c => b.push (f c)) b).data = b.data ++ l.map f := by
  induction l generalizing b with
  | nil => simp
  | cons c cs ih =>
    rw [List.foldl_cons, ih]
    simp [String.push]

theorem locationFromName_data (name : String) :
    (locationFromName name).data = name.data.map locationRune := by
  simp [locationFromName, foldl_push_data]

theorem locationFromName_get (name : String) (i : Nat) :
    (locationFromName name).data[i]? = (name.data[i]?).map locationRune := by
  rw [locationFromName_data, List.getElem?_map]

/-- C1: the output of `locationFromName` has as many characters as the label
and has a hyphen wherever the label has a space (U+0020) or an underscore;
"My Command" becomes "My-Command" and "a_b c" becomes "a-b-c". -/
theorem locationFromName_hyphenates (name : String) :
    (locationFromName name).length = name.length
    ∧ (∀ (i : Nat) (c : Char), name.data[i]? = some c → (c = ' ' ∨ c = '_') →
        (locationFromName name).data[i]? = some '-')
    ∧ locationFromName "My Command" = "My-Command"
    ∧ locationFromName "a_b c" = "a-b-c" := by
  refine ⟨?_, ?_, by decide, by decide⟩
  · show (locationFromName name).data.length = name.data.length
    rw [locationFromName_data, List.length_map]
  · intro i c hi hc
    rw [locationFromName_get, hi]
    rcases hc with rfl | rfl <;> decide

theorem locationFromName_hyphenates_witness :
    (locationFromName "x y_z").data[3]? = some '-' :=
  (locationFromName_hyphenates "x y_z").2.1 3 '_' (by decide) (Or.inr rfl)

/-- C2, as stated, fails: the tab of the label "a\tb" is neither a space
(U+0020) nor an underscore, and `locationFromName` rewrites it to a hyphen. -/
theorem locationFromName_rewrites_tab :
    ¬ (∀ (name : String) (i : Nat) (c : Char), name.data[i]? = some c →
        c ≠ ' ' → c ≠ '_' → (locationFromName name).data[i]? = some c) := by
  intro h
  have h1 := h "a\tb" 1 '\t' (by decide) (by decide) (by decide)
  revert h1
  decide

/-- C2, amended: a character of the label that is neither white space in the
sense of `unicode.IsSpace` nor an underscore appears unchanged at the same
position in the output of `locationFromName`; a character that is white space
in that sense is rewritten to a hyphen; and tab, newline, vertical tab, form
feed, carriage return, space, U+0085, U+00A0 and the other `White_Space` code
points are white space in that sense. -/
theorem locationFromName_keeps_or_hyphenates (name : String) (i : Nat) (c : Char)
    (hi : name.data[i]? = some c) :
    (unicodeIsSpace c = false → c ≠ '_' → (locationFromName name).data[i]? = some c)
    ∧ (unicodeIsSpace c = true → (locationFromName name).data[i]? = some '-')
    ∧ (∀ n ∈ [0x09, 0x0A, 0x0B, 0x0C, 0x0D, 0x20, 0x85, 0xA0, 0x1680, 0x2000, 0x2001,
          0x2002, 0x2003, 0x2004, 0x2005, 0x2006, 0x2007, 0x2008, 0x2009, 0x200A, 0x2028,
          0x2029, 0x202F, 0x205F, 0x3000],
        unicodeIsSpace (Char.ofNat n) = true) := by
  refine ⟨?_, ?_, by decide⟩
  · intro hs hu
    rw [locationFromName_get, hi]
    simp [locationRune, hs, hu]
  · intro hs
    rw [locationFromName_get, hi]
    simp [locationRune, hs]

theorem locationFromName_keeps_or_hyphenates_witness :
    (locationFromName "a\tb").data[2]? = some 'b'
    ∧ (locationFromName "a\tb").data[1]? = some '-'
    ∧ locationFromName "a\nb\tc d" = "a-b-c-d" :=
  ⟨(locationFromName_keeps_or_hyphenates "a\tb" 2 'b' (by decide)).1 (by decide) (by decide),
   (locationFromName_keeps_or_hyphenates "a\tb" 1 '\t' (by decide)).2.1 (by decide),
   by decide⟩

end Goapp

namespace Goapp

open Utils Apps

/-! ## Properties of `MakeApp` and of the built-in steps -/

theorem contains_eq_false_iff (list : List Location) (loc : Location) :
    Locations.Contains list loc = false ↔ loc ∉ list := by
  simp only [Locations.Contains, List.any_eq_false, beq_iff_eq]
  constructor
  · intro h hmem
    exact h loc hmem rfl
  · intro h x hx hxl
    exact h (hxl ▸ hx)

theorem nodup_append_new (list : List Location) (loc : Location)
    (hn : list.Nodup) (hc : Locations.Contains list loc = false) :
    (list ++ [loc]).Nodup := by
  rw [contains_eq_false_iff] at hc
  rw [List.nodup_append]
  refine ⟨hn, List.nodup_singleton loc, ?_⟩
  intro a ha hb
  rw [List.mem_singleton] at hb
  exact hc (hb ▸ ha)

/-- An invariant of the App that every option of the list keeps, when it
succeeds, still holds after the loop of `MakeApp` has run them all. -/
theorem runOptions_invariant {B W : Type} (P : App B → Prop)
    (opts : List (AppOption B W))
    (hstep : ∀ opt ∈ opts, ∀ app w app1 w1, opt app w = (none, app1, w1) → P app → P app1)
    (app : App B) (w : W) (app1 : App B) (w1 : W)
    (hrun : runOptions opts app w = (none, app1, w1)) (h0 : P app) : P app1 := by
  induction opts generalizing app w with
  | nil =>
    simp [runOptions] at hrun
    exact hrun.1 ▸ h0
  | cons opt rest ih =>
    rw [runOptions] at hrun
    rcases hopt : opt app w with ⟨e, app2, w2⟩
    rw [hopt] at hrun
    cases e with
    | some err => simp at hrun
    | none =>
      simp only at hrun
      exact ih (fun o ho => hstep o (List.mem_cons_of_mem _ ho)) app2 w2 hrun
        (hstep opt (List.mem_cons_self _ _) app w app2 w2 hopt h0)

theorem MakeApp_ok_inv {B W : Type} (m : Manifest) (opts : List (AppOption B W)) (w : W)
    (app : App B) (w1 : W) (hok : MakeApp m opts w = ((some app, none), w1)) :
    ∃ app0, runOptions opts (newApp m) w = (none, app0, w1) ∧ app = autoServe app0 := by
  unfold MakeApp at hok
  rcases hrun : runOptions opts (newApp m) w with ⟨e, app0, w0⟩
  rw [hrun] at hok
  cases e with
  | some err => simp at hok
  | none =>
    simp only [Prod.mk.injEq, Option.some.injEq, and_true] at hok
    exact ⟨app0, by rw [hok.2], hok.1.symm⟩

theorem autoServe_manifest {B : Type} (app : App B) :
    (autoServe app).Manifest = app.Manifest := rfl

/-- A property of the manifest that the initialisers keep is kept by every
built-in step that succeeds, provided that it is also kept when one of the
three fixed locations is added to `RequestedLocations`. -/
theorem builtin_step_keeps {B W : Type} (bs : Bindables B) (Q : Manifest → Prop)
    (hInit : ∀ b a a1, bs.Init b a = (none, a1) → Q a.Manifest → Q a1.Manifest)
    (hRun : ∀ items a a1, bs.runInitializers items a = (none, a1) →
      Q a.Manifest → Q a1.Manifest)
    (hAdd : ∀ (mf : Manifest) (loc : Location), Q mf →
      Locations.Contains mf.RequestedLocations loc = false →
      Q { mf with RequestedLocations := mf.RequestedLocations ++ [loc] })
    (step : BuiltinStep B) (app : App B) (w : W) (app1 : App B) (w1 : W)
    (hstep : (step.toOption bs : AppOption B W) app w = (none, app1, w1))
    (h0 : Q app.Manifest) : Q app1.Manifest := by
  cases step with
  | withLog log =>
    simp [BuiltinStep.toOption, WithLog] at hstep
    rw [← hstep.1]; exact h0
  | withStatic staticFS =>
    simp [BuiltinStep.toOption, WithStatic] at hstep
    rw [← hstep.1]; exact h0
  | withCommand subcommands =>
    simp only [BuiltinStep.toOption, WithCommand] at hstep
    cases hmk : bs.MakeBindableMulti app.Manifest.AppID subcommands with
    | error err => rw [hmk] at hstep; simp at hstep
    | ok command =>
      rw [hmk] at hstep
      simp only at hstep
      rcases hin : bs.Init command { app with command := some command } with ⟨e, a1⟩
      rw [hin] at hstep
      cases e with
      | some err => simp at hstep
      | none =>
        have hq : Q a1.Manifest := hInit _ _ _ hin h0
        simp only [Prod.mk.injEq, true_and] at hstep
        rw [← hstep.1]
        cases hc : Locations.Contains a1.Manifest.RequestedLocations LocationCommand with
        | true => simpa using hq
        | false => simpa using hAdd _ _ hq hc
  | withPostMenu items =>
    simp only [BuiltinStep.toOption, WithPostMenu] at hstep
    rcases hin : bs.runInitializers items { app with postMenu := items } with ⟨e, a1⟩
    rw [hin] at hstep
    cases e with
    | some err => simp at hstep
    | none =>
      have hq : Q a1.Manifest := hRun _ _ _ hin h0
      simp only [Prod.mk.injEq, true_and] at hstep
      rw [← hstep.1]
      cases hc : Locations.Contains a1.Manifest.RequestedLocations LocationPostMenu with
      | true => simpa using hq
      | false => simpa using hAdd _ _ hq hc
  | withChannelHeader items =>
    simp only [BuiltinStep.toOption, WithChannelHeader] at hstep
    rcases hin : bs.runInitializers items { app with channelHeader := items } with ⟨e, a1⟩
    rw [hin] at hstep
    cases e with
    | some err => simp at hstep
    | none =>
      have hq : Q a1.Manifest := hRun _ _ _ hin h0
      simp only [Prod.mk.injEq, true_and] at hstep
      rw [← hstep.1]
      cases hc : Locations.Contains a1.Manifest.RequestedLocations LocationChannelHeader with
      | true => simpa using hq
      | false => simpa using hAdd _ _ hq hc

/-- A property of the manifest as in `builtin_step_keeps` that holds of the
manifest `MakeApp` starts from holds of the manifest of the App it returns. -/
theorem MakeApp_builtin_keeps {B W : Type} (bs : Bindables B) (Q : Manifest → Prop)
    (hInit : ∀ b a a1, bs.Init b a = (none, a1) → Q a.Manifest → Q a1.Manifest)
    (hRun : ∀ items a a1, bs.runInitializers items a = (none, a1) →
      Q a.Manifest → Q a1.Manifest)
    (hAdd : ∀ (mf : Manifest) (loc : Location), Q mf →
      Locations.Contains mf.RequestedLocations loc = false →
      Q { mf with RequestedLocations := mf.RequestedLocations ++ [loc] })
    (m : Manifest) (steps : List (BuiltinStep B)) (w : W) (app : App B) (w1 : W)
    (hok : MakeApp m (steps.map (BuiltinStep.toOption bs)) w = ((some app, none), w1))
    (h0 : Q (newApp m : App B).Manifest) : Q app.Manifest := by
  obtain ⟨app0, hrun, rfl⟩ := MakeApp_ok_inv m _ w app w1 hok
  rw [autoServe_manifest]
  refine runOptions_invariant (fun a => Q a.Manifest) _ ?_ _ w app0 w1 hrun h0
  intro opt hopt a w2 a1 w3 hstep hq
  rw [List.mem_map] at hopt
  obtain ⟨step, _, rfl⟩ := hopt
  exact builtin_step_keeps bs Q hInit hRun hAdd step a w2 a1 w3 hstep hq

end Goapp

namespace Goapp

open Utils Apps

/-- C3: when the base manifest's `RequestedLocations` has no duplicates and
the Bindable initialisers leave `RequestedLocations` as it is, the App that
`MakeApp` returns for any list of the built-in steps has no duplicates in its
`RequestedLocations`. -/
theorem MakeApp_requestedLocations_nodup {B W : Type} (bs : Bindables B) (m : Manifest)
    (steps : List (BuiltinStep B)) (w : W) (app : App B) (w1 : W)
    (hInit : ∀ b a a1, bs.Init b a = (none, a1) →
      a1.Manifest.RequestedLocations = a.Manifest.RequestedLocations)
    (hRun : ∀ items a a1, bs.runInitializers items a = (none, a1) →
      a1.Manifest.RequestedLocations = a.Manifest.RequestedLocations)
    (hm : m.RequestedLocations.Nodup)
    (hok : MakeApp m (steps.map (BuiltinStep.toOption bs)) w = ((some app, none), w1)) :
    app.Manifest.RequestedLocations.Nodup := by
  refine MakeApp_builtin_keeps bs (fun mf => mf.RequestedLocations.Nodup) ?_ ?_ ?_
    m steps w app w1 hok ?_
  · intro b a a1 h hq
    show a1.Manifest.RequestedLocations.Nodup
    rw [hInit b a a1 h]; exact hq
  · intro items a a1 h hq
    show a1.Manifest.RequestedLocations.Nodup
    rw [hRun items a a1 h]; exact hq
  · intro mf loc hq hc
    exact nodup_append_new _ _ hq hc
  · show (newApp m : App B).Manifest.RequestedLocations.Nodup
    unfold newApp
    split <;> exact hm

theorem MakeApp_requestedLocations_nodup_witness :
    MakeApp sampleManifest (sampleSteps.map (BuiltinStep.toOption sampleBindables)) ()
      = ((some sampleApp, none), ())
    ∧ sampleApp.Manifest.RequestedLocations
      = [LocationCommand, LocationPostMenu, LocationChannelHeader]
    ∧ sampleApp.Manifest.RequestedLocations.Nodup :=
  ⟨by decide, by decide,
    MakeApp_requestedLocations_nodup sampleBindables sampleManifest sampleSteps ()
      sampleApp ()
      (by intro b a a1 h; simp [sampleBindables] at h; rw [← h]; rfl)
      (by
        intro items a a1 h
        simp only [sampleBindables] at h
        split at h
        · simp at h
        · simp at h; rw [h])
      (by decide)
      (by decide)⟩

end Goapp

namespace Goapp

open Utils Apps

/-! ## `MakeApp` is fail-fast -/

theorem runOptions_of_allSucceed {B W : Type} (opts : List (AppOption B W))
    (st st1 : App B × W) (h : AllSucceed opts st st1) :
    runOptions opts st.1 st.2 = (none, st1.1, st1.2) := by
  induction h with
  | nil st => rfl
  | cons opt rest app app1 w w1 st hopt _ ih =>
    show runOptions (opt :: rest) app w = _
    rw [runOptions, hopt]
    exact ih

theorem runOptions_first_failure {B W : Type} (pre post : List (AppOption B W))
    (f : AppOption B W) (st st1 : App B × W) (e : GoError) (app2 : App B) (w2 : W)
    (h : AllSucceed pre st st1) (hf : f st1.1 st1.2 = (some e, app2, w2)) :
    runOptions (pre ++ f :: post) st.1 st.2 = (some e, app2, w2) := by
  induction h with
  | nil st =>
    show runOptions (f :: post) st.1 st.2 = _
    rw [runOptions, hf]
  | cons opt rest app app1 w w1 st hopt _ ih =>
    show runOptions (opt :: (rest ++ f :: post)) app w = _
    rw [runOptions, hopt]
    exact ih hf

theorem allSucceed_or_first_failure {B W : Type} (opts : List (AppOption B W))
    (app : App B) (w : W) :
    (∃ pre f post app1 w1 e app2 w2, opts = pre ++ f :: post
        ∧ AllSucceed pre (app, w) (app1, w1) ∧ f app1 w1 = (some e, app2, w2))
    ∨ (∃ app1 w1, AllSucceed opts (app, w) (app1, w1)) := by
  induction opts generalizing app w with
  | nil => exact Or.inr ⟨app, w, AllSucceed.nil _⟩
  | cons opt rest ih =>
    rcases hopt : opt app w with ⟨e, app2, w2⟩
    cases e with
    | some err =>
      exact Or.inl ⟨[], opt, rest, app, w, err, app2, w2, rfl, AllSucceed.nil _, hopt⟩
    | none =>
      rcases ih app2 w2 with ⟨pre, f, post, a1, w1, e, a3, w3, heq, hpre, hf⟩ | ⟨a1, w1, hall⟩
      · refine Or.inl ⟨opt :: pre, f, post, a1, w1, e, a3, w3, ?_, ?_, hf⟩
        · rw [heq]; rfl
        · exact AllSucceed.cons opt pre app app2 w w2 _ hopt hpre
      · exact Or.inr ⟨a1, w1, AllSucceed.cons opt rest app app2 w w2 _ hopt hall⟩

/-- C5: `MakeApp` is fail-fast. If the options before `f` all succeed and `f`
returns an error, `MakeApp` returns no App and that error, and the outside
state is the one `f` left: no later option has run. If all options succeed,
`MakeApp` returns an App and no error. One of the two cases always applies. -/
theorem MakeApp_fail_fast {B W : Type} (m : Manifest) (opts : List (AppOption B W)) (w : W) :
    (∀ pre f post app1 w1 e app2 w2, opts = pre ++ f :: post →
        AllSucceed pre (newApp m, w) (app1, w1) → f app1 w1 = (some e, app2, w2) →
        MakeApp m opts w = ((none, some e), w2))
    ∧ (∀ app1 w1, AllSucceed opts (newApp m, w) (app1, w1) →
        MakeApp m opts w = ((some (autoServe app1), none), w1))
    ∧ ((∃ pre f post app1 w1 e app2 w2, opts = pre ++ f :: post
          ∧ AllSucceed pre (newApp m, w) (app1, w1) ∧ f app1 w1 = (some e, app2, w2))
        ∨ (∃ app1 w1, AllSucceed opts (newApp m, w) (app1, w1))) := by
  refine ⟨?_, ?_, allSucceed_or_first_failure opts (newApp m) w⟩
  · intro pre f post app1 w1 e app2 w2 heq hpre hf
    have h := runOptions_first_failure pre post f (newApp m, w) (app1, w1) e app2 w2 hpre hf
    simp only at h
    rw [MakeApp, heq, h]
  · intro app1 w1 hall
    have h := runOptions_of_allSucceed opts (newApp m, w) (app1, w1) hall
    simp only at h
    rw [MakeApp, h]

theorem MakeApp_fail_fast_witness :
    MakeApp (B := Nat) sampleManifest
      [countingOption 1, failingOption 10 "first", failingOption 100 "second",
        countingOption 1000] 0
      = ((none, some (.sentinel "first")), 11) :=
  (MakeApp_fail_fast sampleManifest
      [countingOption 1, failingOption 10 "first", failingOption 100 "second",
        countingOption 1000] 0).1
    [countingOption 1] (failingOption 10 "first")
    [failingOption 100 "second", countingOption 1000]
    (newApp sampleManifest) 1 (.sentinel "first") (newApp sampleManifest) 11 rfl
    (AllSucceed.cons _ _ _ _ _ _ _ rfl (AllSucceed.nil _)) rfl

end Goapp

namespace Appservices

open Utils

/-! ## Properties of the KV capability -/

theorem check_pass (r : Request) (hu : r.ActingUserID ≠ "") (ha : r.SourceAppID ≠ "") :
    r.Check [r.RequireActingUser, r.RequireFromApp] = none := by
  simp [Request.Check, Request.RequireActingUser, Request.RequireFromApp, hu, ha]

theorem check_fail (r : Request) (h : r.ActingUserID = "" ∨ r.SourceAppID = "") :
    ∃ e, r.Check [r.RequireActingUser, r.RequireFromApp] = some e
      ∧ errorsIs e ErrUnauthorized = true ∧ errorsIs e ErrInvalid = false := by
  by_cases hu : r.ActingUserID = ""
  · refine ⟨NewUnauthorizedError "no acting user", ?_, by decide, by decide⟩
    simp [Request.Check, Request.RequireActingUser, hu]
  · have ha : r.SourceAppID = "" := h.resolve_left hu
    refine ⟨NewUnauthorizedError "not from an App", ?_, by decide, by decide⟩
    simp [Request.Check, Request.RequireActingUser, Request.RequireFromApp, hu, ha]

theorem valid_ne_nil (data : List UInt8) (h : Json.Valid data = true) : data ≠ [] := by
  intro hd
  subst hd
  revert h
  decide

theorem valid_empty_object : Json.Valid [0x7B, 0x7D] = true := by decide

/-- C6: for a request with an acting user and a calling App, `KVSet` with a
payload that `json.Valid` rejects returns `false` and a validation error, and
the store state is the one before the call, whatever the store is; the bytes
of "not json" are such a payload. -/
theorem KVSet_rejects_invalid_json {σ : Type} (a : AppServices σ) (r : Request)
    (pfx id : String) (data : List UInt8) (s : σ)
    (hu : r.ActingUserID ≠ "") (ha : r.SourceAppID ≠ "") (hd : Json.Valid data = false) :
    a.KVSet r pfx id data s
      = ((false, some (NewInvalidError "payload is not valid json")), s)
    ∧ errorsIs (NewInvalidError "payload is not valid json") ErrInvalid = true
    ∧ Json.Valid (bytesOf "not json") = false := by
  refine ⟨?_, by decide, by decide⟩
  simp [AppServices.KVSet, check_pass r hu ha, hd]

theorem KVSet_rejects_invalid_json_witness :
    AppServices.KVSet { store := { AppKV := countingStore } } sampleRequest "ns" "k"
        (bytesOf "not json") 5
      = ((false, some (NewInvalidError "payload is not valid json")), 5) :=
  (KVSet_rejects_invalid_json { store := { AppKV := countingStore } } sampleRequest "ns" "k"
    (bytesOf "not json") 5 (by decide) (by decide) (by decide)).1

/-- C7: for a request with an acting user and a calling App, when the store's
`Get` reports the not-found condition (no data, and an error that is
`ErrNotFound`), `KVGet` returns the bytes "{}" and no error; when the store
reports an error that is not `ErrNotFound`, `KVGet` returns that error and no
data. -/
theorem KVGet_not_found_or_error {σ : Type} (a : AppServices σ) (r : Request)
    (pfx id : String) (s : σ) (hu : r.ActingUserID ≠ "") (ha : r.SourceAppID ≠ "") :
    (∀ e s1, a.store.AppKV.Get r pfx id s = (([], some e), s1) →
        errorsIs e ErrNotFound = true →
        a.KVGet r pfx id s = ((bytesOf "{}", none), s1))
    ∧ (∀ data e s1, a.store.AppKV.Get r pfx id s = ((data, some e), s1) →
        errorsIs e ErrNotFound = false →
        a.KVGet r pfx id s = (([], some e), s1)) := by
  constructor
  · intro e s1 hget hnf
    simp only [AppServices.KVGet, check_pass r hu ha, hget]
    simp [hnf]
    decide
  · intro data e s1 hget hnf
    simp only [AppServices.KVGet, check_pass r hu ha, hget]
    simp [hnf]

theorem KVGet_not_found_or_error_witness :
    AppServices.KVGet { store := { AppKV := countingStore } } sampleRequest "ns" "k" 5
        = ((bytesOf "{}", none), 6)
    ∧ AppServices.KVGet { store := { AppKV := brokenStore } } sampleRequest "ns" "k" 5
        = (([], some (.sentinel "connection lost")), 6) :=
  ⟨(KVGet_not_found_or_error { store := { AppKV := countingStore } } sampleRequest "ns" "k" 5
      (by decide) (by decide)).1 _ 6 rfl (by decide),
   (KVGet_not_found_or_error { store := { AppKV := brokenStore } } sampleRequest "ns" "k" 5
      (by decide) (by decide)).2 [] _ 6 rfl (by decide)⟩

end Appservices

namespace Appservices

open Utils

/-! ## The KV capability over the map store -/

theorem MapState.get_set (s : MapState) (k : KVKey) (d : List UInt8) :
    (s.set k d).get k = some d := by
  simp [MapState.set, MapState.get]

theorem MapState.mem_of_get (s : MapState) (k : KVKey) (d : List UInt8)
    (h : s.get k = some d) : (k, d) ∈ s := by
  unfold MapState.get at h
  cases he : s.find? (fun e => decide (e.1 = k)) with
  | none => rw [he] at h; simp at h
  | some e =>
    rw [he] at h
    simp only [Option.map_some', Option.some.injEq] at h
    have hk := List.find?_some he
    have hmem := List.mem_of_find?_eq_some he
    simp only [decide_eq_true_eq] at hk
    rw [← hk, ← h]
    exact hmem

theorem KVSet_map_state (r : Request) (pfx id : String) (data : List UInt8) (s : MapState) :
    ((mapServices.KVSet r pfx id data s).1.2 = none ∧ Json.Valid data = true
        ∧ (mapServices.KVSet r pfx id data s).2 = s.set (kvKey r pfx id) data
        ∧ r.Check [r.RequireActingUser, r.RequireFromApp] = none)
    ∨ ((mapServices.KVSet r pfx id data s).1.2 ≠ none
        ∧ (mapServices.KVSet r pfx id data s).2 = s) := by
  unfold AppServices.KVSet
  cases hc : r.Check [r.RequireActingUser, r.RequireFromApp] with
  | some err => right; simp
  | none =>
    cases hv : Json.Valid data with
    | false => right; simp
    | true => left; simp [mapServices, mapStore]

/-- C8: over the map store, when `KVSet(r, p, id, d)` returns no error, the
`KVGet(r, p, id)` that follows returns no error and the bytes `d`. -/
theorem KV_round_trip (r : Request) (pfx id : String) (d : List UInt8) (s s1 : MapState)
    (b : Bool) (hset : mapServices.KVSet r pfx id d s = ((b, none), s1)) :
    mapServices.KVGet r pfx id s1 = ((d, none), s1) := by
  rcases KVSet_map_state r pfx id d s with ⟨_, hv, hs, hc⟩ | ⟨hne, _⟩
  · rw [hset] at hs
    simp only at hs
    have hlen : d.length ≠ 0 := by
      intro h0
      exact valid_ne_nil d hv (List.length_eq_zero.mp h0)
    have hget : MapState.get s1 (kvKey r pfx id) = some d := by
      rw [hs]; exact MapState.get_set s _ d
    simp [AppServices.KVGet, hc, mapServices, mapStore, hget, hlen]
  · rw [hset] at hne
    exact absurd rfl hne

theorem KV_round_trip_witness :
    mapServices.KVSet sampleRequest "ns" "k" (bytesOf "[1, 2]") []
      = ((true, none), [(kvKey sampleRequest "ns" "k", bytesOf "[1, 2]")])
    ∧ mapServices.KVGet sampleRequest "ns" "k"
        [(kvKey sampleRequest "ns" "k", bytesOf "[1, 2]")]
      = ((bytesOf "[1, 2]", none), [(kvKey sampleRequest "ns" "k", bytesOf "[1, 2]")]) :=
  ⟨by decide,
   KV_round_trip sampleRequest "ns" "k" (bytesOf "[1, 2]") []
    [(kvKey sampleRequest "ns" "k", bytesOf "[1, 2]")] true (by decide)⟩

theorem reachable_values_valid (s : MapState) (h : Reachable s) :
    ∀ e ∈ s, Json.Valid e.2 = true := by
  induction h with
  | empty => intro e he; simp at he
  | set r pfx id data s _ ih =>
    rcases KVSet_map_state r pfx id data s with ⟨_, hv, hs, _⟩ | ⟨_, hs⟩
    · rw [hs]
      intro e he
      simp only [MapState.set, MapState.delete, List.mem_cons, List.mem_filter] at he
      rcases he with rfl | ⟨hm, _⟩
      · exact hv
      · exact ih e hm
    · rw [hs]; exact ih
  | delete r pfx id s _ ih =>
    unfold AppServices.KVDelete
    cases hc : r.Check [r.RequireActingUser, r.RequireFromApp] with
    | some err => exact ih
    | none =>
      intro e he
      simp only [mapServices, mapStore, MapState.delete, List.mem_filter] at he
      exact ih e he.1

/-- C9: in every state of the map store that is reachable from the empty store
through `KVSet` and `KVDelete`, every stored value passes `json.Valid`, and
the data of every `KVGet` that returns no error passes `json.Valid`. -/
theorem reachable_store_valid_json (s : MapState) (h : Reachable s) :
    (∀ e ∈ s, Json.Valid e.2 = true)
    ∧ (∀ (r : Request) (pfx id : String) (data : List UInt8) (s1 : MapState),
        mapServices.KVGet r pfx id s = ((data, none), s1) → Json.Valid data = true) := by
  refine ⟨reachable_values_valid s h, ?_⟩
  intro r pfx id data s1 hget
  unfold AppServices.KVGet at hget
  cases hc : r.Check [r.RequireActingUser, r.RequireFromApp] with
  | some err => rw [hc] at hget; simp at hget
  | none =>
    rw [hc] at hget
    simp only [mapServices, mapStore] at hget
    cases hg : MapState.get s (kvKey r pfx id) with
    | none =>
      rw [hg] at hget
      simp [errorsIs, ErrNotFound] at hget
      rw [← hget.1]
      exact valid_empty_object
    | some d =>
      rw [hg] at hget
      have hv : Json.Valid d = true :=
        reachable_values_valid s h _ (MapState.mem_of_get s _ d hg)
      have hlen : d.length ≠ 0 := by
        intro h0
        exact valid_ne_nil d hv (List.length_eq_zero.mp h0)
      simp [hlen] at hget
      rw [← hget.1]
      exact hv

theorem reachable_store_valid_json_witness :
    Json.Valid (bytesOf "[1, 2]") = true
    ∧ Json.Valid (mapServices.KVGet sampleRequest "ns" "other"
        [(kvKey sampleRequest "ns" "k", bytesOf "[1, 2]")]).1.1 = true :=
  ⟨(reachable_store_valid_json [(kvKey sampleRequest "ns" "k", bytesOf "[1, 2]")]
      (Reachable.set sampleRequest "ns" "k" (bytesOf "[1, 2]") [] Reachable.empty)).1
      (kvKey sampleRequest "ns" "k", bytesOf "[1, 2]") (List.mem_singleton.mpr rfl),
   (reachable_store_valid_json [(kvKey sampleRequest "ns" "k", bytesOf "[1, 2]")]
      (Reachable.set sampleRequest "ns" "k" (bytesOf "[1, 2]") [] Reachable.empty)).2
      sampleRequest "ns" "other" _ _ rfl⟩

/-- C10: for a request that lacks an acting user or a calling App, each of
`KVSet`, `KVGet`, `KVDelete` and `KVList` returns the permission error of the
request check, and the state is the one before the call, whatever the store
and the visitor are; `KVSet` does so for every payload, valid JSON or not, and
the error is not a validation error. -/
theorem KV_requires_user_and_app {σ : Type} (a : AppServices σ) (r : Request)
    (pfx id : String) (data : List UInt8) (visit : String → σ → Option GoError × σ) (s : σ)
    (h : r.ActingUserID = "" ∨ r.SourceAppID = "") :
    ∃ e, r.Check [r.RequireActingUser, r.RequireFromApp] = some e
      ∧ errorsIs e ErrUnauthorized = true ∧ errorsIs e ErrInvalid = false
      ∧ a.KVSet r pfx id data s = ((false, some e), s)
      ∧ a.KVGet r pfx id s = (([], some e), s)
      ∧ a.KVDelete r pfx id s = (some e, s)
      ∧ a.KVList r pfx visit s = (some e, s) := by
  obtain ⟨e, hc, hperm, hinv⟩ := check_fail r h
  refine ⟨e, hc, hperm, hinv, ?_, ?_, ?_, ?_⟩
  · simp [AppServices.KVSet, hc]
  · simp [AppServices.KVGet, hc]
  · simp [AppServices.KVDelete, hc]
  · simp [AppServices.KVList, hc]

theorem KV_requires_user_and_app_witness :
    ∃ e, anonymousRequest.Check
          [anonymousRequest.RequireActingUser, anonymousRequest.RequireFromApp] = some e
      ∧ errorsIs e ErrUnauthorized = true ∧ errorsIs e ErrInvalid = false
      ∧ AppServices.KVSet { store := { AppKV := countingStore } } anonymousRequest "ns" "k"
          (bytesOf "not json") 5 = ((false, some e), 5)
      ∧ AppServices.KVGet { store := { AppKV := countingStore } } anonymousRequest "ns" "k" 5
          = (([], some e), 5)
      ∧ AppServices.KVDelete { store := { AppKV := countingStore } } anonymousRequest "ns" "k" 5
          = (some e, 5)
      ∧ AppServices.KVList { store := { AppKV := countingStore } } anonymousRequest "ns"
          sampleVisitor 5 = (some e, 5) :=
  KV_requires_user_and_app { store := { AppKV := countingStore } } anonymousRequest "ns" "k"
    (bytesOf "not json") sampleVisitor 5 (Or.inl rfl)

end Appservices

namespace Goapp

open Utils Apps

/-! ## The fixed routes, and the canonical form of a location -/

/-- C15: the router of the App that `MakeApp` returns, for any list of
options (the built-in steps and the empty list included), ends with the three
fixed routes: "/ping" answering with the JSON body "{}", "/manifest.json"
restricted to GET and serving the manifest, and the Call path "/bindings"
serving the bindings. -/
theorem MakeApp_fixed_routes {B W : Type} (m : Manifest) (opts : List (AppOption B W)) (w : W)
    (app : App B) (w1 : W) (hok : MakeApp m opts w = ((some app, none), w1)) :
    ∃ earlier : List Route, app.Router.routes = earlier ++
      [{ path := "/ping", subtree := false,
         handler := .jsonData (Appservices.bytesOf "{}"), methods := [] },
       { path := "/manifest.json", subtree := false,
         handler := .jsonManifest, methods := ["GET"] },
       { path := "/bindings", subtree := false,
         handler := .call "getBindings", methods := [] }] := by
  obtain ⟨app0, _, rfl⟩ := MakeApp_ok_inv m opts w app w1 hok
  refine ⟨app0.Router.routes, ?_⟩
  have hb : Appservices.bytesOf "{}" = [0x7B, 0x7D] := by decide
  rw [hb]
  simp [autoServe, App.HandleCall, Router.handle]

theorem MakeApp_fixed_routes_witness :
    (∃ earlier : List Route, sampleApp.Router.routes = earlier ++
      [{ path := "/ping", subtree := false,
         handler := .jsonData (Appservices.bytesOf "{}"), methods := [] },
       { path := "/manifest.json", subtree := false,
         handler := .jsonManifest, methods := ["GET"] },
       { path := "/bindings", subtree := false,
         handler := .call "getBindings", methods := [] }])
    ∧ sampleApp.Router.routes.length = 6 :=
  ⟨MakeApp_fixed_routes sampleManifest
      (sampleSteps.map (BuiltinStep.toOption sampleBindables)) () sampleApp () (by decide),
   by decide⟩

theorem locationRune_not_space (c : Char) :
    locationRune c ≠ ' ' ∧ locationRune c ≠ '_' := by
  unfold locationRune
  by_cases h : (unicodeIsSpace c || c == '_') = true
  · rw [if_pos h]
    exact ⟨by decide, by decide⟩
  · rw [if_neg h]
    simp only [Bool.or_eq_true, beq_iff_eq, not_or] at h
    refine ⟨?_, h.2⟩
    intro hc
    apply h.1
    rw [hc]
    decide

theorem locationRune_idem (c : Char) : locationRune (locationRune c) = locationRune c := by
  by_cases h : (unicodeIsSpace c || c == '_') = true
  · have h1 : locationRune c = '-' := by rw [locationRune, if_pos h]
    rw [h1]
    decide
  · have h1 : locationRune c = c := by rw [locationRune, if_neg h]
    rw [h1, h1]

/-- C16: the output of `locationFromName` contains no space (U+0020) and no
underscore, and `locationFromName` applied to its own output returns it
unchanged. -/
theorem locationFromName_canonical (s : String) :
    (∀ c ∈ (locationFromName s).data, c ≠ ' ' ∧ c ≠ '_')
    ∧ locationFromName (locationFromName s) = locationFromName s := by
  constructor
  · intro c hc
    rw [locationFromName_data, List.mem_map] at hc
    obtain ⟨d, _, rfl⟩ := hc
    exact locationRune_not_space d
  · apply String.ext
    rw [locationFromName_data, locationFromName_data, List.map_map]
    apply List.map_congr_left
    intro c _
    exact locationRune_idem c

theorem locationFromName_canonical_witness :
    locationFromName "my first_command" = "my-first-command"
    ∧ locationFromName (locationFromName "my first_command")
      = locationFromName "my first_command"
    ∧ ('-' ≠ ' ' ∧ '-' ≠ '_') :=
  ⟨by decide, (locationFromName_canonical "my first_command").2,
   (locationFromName_canonical "my first_command").1 '-' (by decide)⟩

end Goapp

namespace Url

open Utils

/-! ## Path-segment escaping and its inverse -/

set_option maxRecDepth 100000 in
theorem hex_round_trip (c : UInt8) :
    ishex (upperhex (c >>> 4)) = true ∧ ishex (upperhex (c &&& 15)) = true
    ∧ (unhex (upperhex (c >>> 4)) <<< 4 ||| unhex (upperhex (c &&& 15))) = c
    ∧ upperhex (c >>> 4) ≠ byte '/' ∧ upperhex (c &&& 15) ≠ byte '/' := by
  rcases c with ⟨v⟩
  revert v
  decide

set_option maxRecDepth 100000 in
theorem unescaped_segment_byte (c : UInt8)
    (h : shouldEscape c .encodePathSegment = false) :
    c ≠ byte '%' ∧ c ≠ byte '/' := by
  rcases c with ⟨v⟩
  revert v
  decide

theorem escape_cons (mode : Encoding) (c : UInt8) (s : List UInt8) :
    escape (c :: s) mode = escapeByte mode c ++ escape s mode := by
  simp [escape]

theorem escapeByte_segment (c : UInt8) :
    escapeByte .encodePathSegment c
      = if shouldEscape c .encodePathSegment then
          [byte '%', upperhex (c >>> 4), upperhex (c &&& 15)]
        else [c] := by
  simp [escapeByte]

theorem unescapeCheck_other (mode : Encoding) (c : UInt8) (rest : List UInt8)
    (hp : c ≠ byte '%') :
    unescapeCheck mode (c :: rest)
      = if c == byte '+' then unescapeCheck mode rest
        else if (mode == .encodeHost || mode == .encodeZone) && c < 0x80
            && shouldEscape c .encodeHost then some InvalidHostError
        else unescapeCheck mode rest := by
  have hb : (c == byte '%') = false := by simpa using hp
  conv_lhs => unfold unescapeCheck
  simp only [hb, Bool.false_eq_true, if_false]

theorem unescapeCheck_percent (mode : Encoding) (a b : UInt8) (rest : List UInt8) :
    unescapeCheck mode (byte '%' :: a :: b :: rest)
      = if !ishex a || !ishex b then some EscapeError
        else if mode == .encodeHost && unhex a < 8
            && !(a == byte '2' && b == byte '5') then some EscapeError
        else if mode == .encodeZone && !(a == byte '2' && b == byte '5')
            && (unhex a <<< 4 ||| unhex b) != byte ' '
            && shouldEscape (unhex a <<< 4 ||| unhex b) .encodeHost then some EscapeError
        else unescapeCheck mode rest := by
  conv_lhs => unfold unescapeCheck
  simp only [beq_self_eq_true, if_true]

theorem unescapeDecode_other (mode : Encoding) (c : UInt8) (rest : List UInt8)
    (hp : c ≠ byte '%') :
    unescapeDecode mode (c :: rest)
      = if c == byte '+' then
          (if mode == .encodeQueryComponent then byte ' ' else byte '+')
            :: unescapeDecode mode rest
        else c :: unescapeDecode mode rest := by
  have hb : (c == byte '%') = false := by simpa using hp
  conv_lhs => unfold unescapeDecode
  simp only [hb, Bool.false_eq_true, if_false]

theorem unescapeDecode_percent (mode : Encoding) (a b : UInt8) (rest : List UInt8) :
    unescapeDecode mode (byte '%' :: a :: b :: rest)
      = (unhex a <<< 4 ||| unhex b) :: unescapeDecode mode rest := by
  conv_lhs => unfold unescapeDecode
  simp only [beq_self_eq_true, if_true]
theorem unescapeCheck_escape (s : List UInt8) :
    unescapeCheck .encodePathSegment (escape s .encodePathSegment) = none := by
  induction s with
  | nil => rfl
  | cons c s ih =>
    rw [escape_cons, escapeByte_segment]
    cases h : shouldEscape c .encodePathSegment with
    | true =>
      obtain ⟨h1, h2, _, _, _⟩ := hex_round_trip c
      simp only [if_true, List.cons_append, List.nil_append]
      rw [unescapeCheck_percent]
      simp [h1, h2, ih]
    | false =>
      obtain ⟨hp, _⟩ := unescaped_segment_byte c h
      simp only [Bool.false_eq_true, if_false, List.cons_append, List.nil_append]
      rw [unescapeCheck_other _ _ _ hp]
      simp [ih]

theorem unescapeDecode_escape (s : List UInt8) :
    unescapeDecode .encodePathSegment (escape s .encodePathSegment) = s := by
  induction s with
  | nil => rfl
  | cons c s ih =>
    rw [escape_cons, escapeByte_segment]
    cases h : shouldEscape c .encodePathSegment with
    | true =>
      obtain ⟨_, _, h3, _, _⟩ := hex_round_trip c
      simp only [if_true, List.cons_append, List.nil_append]
      rw [unescapeDecode_percent, h3, ih]
    | false =>
      obtain ⟨hp, _⟩ := unescaped_segment_byte c h
      simp only [Bool.false_eq_true, if_false, List.cons_append, List.nil_append]
      rw [unescapeDecode_other _ _ _ hp, ih]
      by_cases hplus : c = byte '+'
      · rw [hplus]
        rfl
      · have hb : (c == byte '+') = false := by simpa using hplus
        rw [hb]
        rfl

theorem PathUnescape_PathEscape (s : List UInt8) :
    PathUnescape (PathEscape s) = (s, none) := by
  simp [PathUnescape, PathEscape, unescape, unescapeCheck_escape, unescapeDecode_escape]

theorem PathEscape_no_slash (s : List UInt8) : ∀ c ∈ PathEscape s, c ≠ byte '/' := by
  induction s with
  | nil => intro c hc; simp [PathEscape, escape] at hc
  | cons d s ih =>
    intro c hc
    rw [PathEscape, escape_cons, escapeByte_segment, List.mem_append] at hc
    rcases hc with hc | hc
    · cases h : shouldEscape d .encodePathSegment with
      | true =>
        obtain ⟨_, _, _, h4, h5⟩ := hex_round_trip d
        rw [h] at hc
        simp only [if_true, List.mem_cons, List.mem_singleton, List.not_mem_nil,
          or_false] at hc
        rcases hc with rfl | rfl | rfl
        · decide
        · exact h4
        · exact h5
      | false =>
        rw [h] at hc
        simp only [Bool.false_eq_true, if_false, List.mem_singleton] at hc
        rw [hc]
        exact (unescaped_segment_byte d h).2
    · exact ih c hc

end Url

namespace Goapp

/-- C13: `pathFromName(label)` is "/" followed by the path-segment escaping of
`locationFromName(label)`; no byte after the first is a "/"; and unescaping
the part after the leading "/" gives back the bytes of
`locationFromName(label)`, with no error. -/
theorem pathFromName_single_segment (label : String) :
    pathFromName label
      = Url.byte '/' :: Url.PathEscape (Appservices.bytesOf (locationFromName label))
    ∧ (∀ c ∈ (pathFromName label).tail, c ≠ Url.byte '/')
    ∧ Url.PathUnescape (pathFromName label).tail
      = (Appservices.bytesOf (locationFromName label), none) := by
  refine ⟨rfl, ?_, ?_⟩
  · exact Url.PathEscape_no_slash _
  · exact Url.PathUnescape_PathEscape _

theorem pathFromName_single_segment_witness :
    pathFromName "a/b c_d?" = Appservices.bytesOf "/a%2Fb-c-d%3F"
    ∧ Url.PathUnescape (Appservices.bytesOf "a%2Fb-c-d%3F")
      = (Appservices.bytesOf "a/b-c-d?", none)
    ∧ Url.byte 'b' ≠ Url.byte '/' :=
  ⟨by decide, by decide,
   (pathFromName_single_segment "a/b c_d?").2.1 (Url.byte 'b') (by decide)⟩

end Goapp

namespace Goapp

open Utils Apps

/-! ## Production serving: the port and the root URL -/

/-- The App of `RunHTTP` at the point where the port is resolved: the logger,
the mode and the HTTP settings are set and `ROOT_URL` has been applied. Its
root URL is the configured root URL. -/
theorem RunHTTP_unfold {B : Type} (app : App B) (getenv : String → String) :
    ∃ app2 : App B, app2.rootURL = configuredRootURL app getenv
      ∧ app2.Mode = DeployHTTP
      ∧ (∃ h, app2.Manifest.Deploy.HTTP = some h)
      ∧ app.RunHTTP getenv =
        match resolvePort app2 (getenv "PORT") with
        | .error err => .error err
        | .ok portStr =>
          .ok { app := if app2.rootURL = "" then
                    app2.setRootURL ("http://localhost:" ++ portStr) else app2,
                portStr := portStr, listen := ":" ++ portStr } := by
  refine ⟨if getenv "ROOT_URL" ≠ "" then
      (App.defaultHTTP { (if app.log.isNone then { app with log := some commandLogger }
        else app) with Mode := DeployHTTP }).setRootURL (getenv "ROOT_URL")
    else App.defaultHTTP { (if app.log.isNone then { app with log := some commandLogger }
        else app) with Mode := DeployHTTP }, ?_, ?_, ?_, ?_⟩
  rotate_left 3
  · simp only [App.RunHTTP]
  all_goals
    cases hb : app.log.isNone <;> cases hh : app.Manifest.Deploy.HTTP <;>
      by_cases hroot : getenv "ROOT_URL" = "" <;>
      simp [App.defaultHTTP, App.setRootURL, App.rootURL, configuredRootURL, hb, hh, hroot]

/-- C11, as stated, fails: with `ROOT_URL` set to ":" and `PORT` unset,
`RunHTTP` resolves neither a port nor a root URL; `url.Parse` rejects the
configured root URL and `RunHTTP` panics with that error. -/
theorem RunHTTP_panics_on_bad_root_url :
    ¬ (∀ (app : App Nat) (getenv : String → String),
        ∃ s, app.RunHTTP getenv = .ok s) := by
  intro h
  obtain ⟨s, hs⟩ := h sampleApp (sampleEnv ":" "")
  have hpanic : sampleApp.RunHTTP (sampleEnv ":" "")
      = .error (.wrap "parse" (.sentinel "missing protocol scheme")) := by rfl
  rw [hpanic] at hs
  cases hs

/-- C11, amended: in `RunHTTP`, when `PORT` is not empty it is the port; when
`PORT` is empty and `url.Parse` accepts the configured root URL, the port is
the port of that URL if it has one and "8080" otherwise; in both cases the
root URL is the configured root URL if that is not empty and
"http://localhost:" followed by the port otherwise, the listen address is ":"
followed by the port and the mode is HTTP. When `PORT` is empty and
`url.Parse` rejects the configured root URL, `RunHTTP` panics with the parse
error. With `ROOT_URL` and `PORT` unset, the manifest root URL
"https://example.test:9000" gives the port "9000", and an empty one gives the
port "8080" and the root URL "http://localhost:8080". -/
theorem RunHTTP_resolution {B : Type} (app : App B) (getenv : String → String) :
    (getenv "PORT" ≠ "" →
      ∃ s, app.RunHTTP getenv = .ok s ∧ s.portStr = getenv "PORT"
        ∧ s.listen = ":" ++ s.portStr ∧ s.app.Mode = DeployHTTP
        ∧ s.app.rootURL = (if configuredRootURL app getenv ≠ "" then
            configuredRootURL app getenv else "http://localhost:" ++ s.portStr))
    ∧ (getenv "PORT" = "" → ∀ u,
        Url.Parse (Appservices.bytesOf (configuredRootURL app getenv)) = .ok u →
      ∃ s, app.RunHTTP getenv = .ok s
        ∧ s.portStr = (if Url.stringOf u.Port ≠ "" then Url.stringOf u.Port else "8080")
        ∧ s.listen = ":" ++ s.portStr ∧ s.app.Mode = DeployHTTP
        ∧ s.app.rootURL = (if configuredRootURL app getenv ≠ "" then
            configuredRootURL app getenv else "http://localhost:" ++ s.portStr))
    ∧ (getenv "PORT" = "" → ∀ err,
        Url.Parse (Appservices.bytesOf (configuredRootURL app getenv)) = .error err →
        app.RunHTTP getenv = .error err)
    ∧ (getenv "ROOT_URL" = "" → getenv "PORT" = "" →
        app.rootURL = "https://example.test:9000" →
        ∃ s, app.RunHTTP getenv = .ok s ∧ s.portStr = "9000"
          ∧ s.app.rootURL = "https://example.test:9000")
    ∧ (getenv "ROOT_URL" = "" → getenv "PORT" = "" → app.rootURL = "" →
        ∃ s, app.RunHTTP getenv = .ok s ∧ s.portStr = "8080"
          ∧ s.app.rootURL = "http://localhost:8080") := by
  obtain ⟨app2, hroot, hmode, ⟨h, hh⟩, hrun⟩ := RunHTTP_unfold app getenv
  have hset : ∀ v, (app2.setRootURL v).rootURL = v ∧ (app2.setRootURL v).Mode = DeployHTTP := by
    intro v
    simp [App.setRootURL, App.rootURL, hh, hmode]
  have hfinal : ∀ portStr : String,
      (if app2.rootURL = "" then app2.setRootURL ("http://localhost:" ++ portStr)
        else app2).Mode = DeployHTTP
      ∧ (if app2.rootURL = "" then app2.setRootURL ("http://localhost:" ++ portStr)
        else app2).rootURL = (if configuredRootURL app getenv ≠ "" then
            configuredRootURL app getenv else "http://localhost:" ++ portStr) := by
    intro portStr
    by_cases hc : app2.rootURL = ""
    · rw [if_pos hc, ← hroot]
      simp [hc, hset]
    · rw [if_neg hc, ← hroot]
      simp [hc, hmode]
  have hok : ∀ u, getenv "PORT" = "" →
      Url.Parse (Appservices.bytesOf (configuredRootURL app getenv)) = .ok u →
      ∃ s, app.RunHTTP getenv = .ok s
        ∧ s.portStr = (if Url.stringOf u.Port ≠ "" then Url.stringOf u.Port else "8080")
        ∧ s.listen = ":" ++ s.portStr ∧ s.app.Mode = DeployHTTP
        ∧ s.app.rootURL = (if configuredRootURL app getenv ≠ "" then
            configuredRootURL app getenv else "http://localhost:" ++ s.portStr) := by
    intro u hp hu
    have hres : resolvePort app2 (getenv "PORT")
        = .ok (if Url.stringOf u.Port ≠ "" then Url.stringOf u.Port else "8080") := by
      simp only [resolvePort, hp, if_true, hroot, hu]
      by_cases hport : Url.stringOf u.Port = "" <;> simp [hport]
    rw [hres] at hrun
    exact ⟨_, hrun, rfl, rfl, (hfinal _).1, (hfinal _).2⟩
  refine ⟨?_, fun hp u hu => hok u hp hu, ?_, ?_, ?_⟩
  · intro hp
    have hres : resolvePort app2 (getenv "PORT") = .ok (getenv "PORT") := by
      simp [resolvePort, hp]
    rw [hres] at hrun
    exact ⟨_, hrun, rfl, rfl, (hfinal _).1, (hfinal _).2⟩
  · intro hp err herr
    have hres : resolvePort app2 (getenv "PORT") = .error err := by
      simp only [resolvePort, hp, if_true, hroot, herr]
    rw [hres] at hrun
    exact hrun
  · intro hr hp hm
    have hc : configuredRootURL app getenv = "https://example.test:9000" := by
      simp [configuredRootURL, hr, hm]
    have hparse : ∃ u, Url.Parse (Appservices.bytesOf "https://example.test:9000") = .ok u
        ∧ Url.stringOf u.Port = "9000" := ⟨_, rfl, rfl⟩
    obtain ⟨u, hu, hport9⟩ := hparse
    obtain ⟨s, hs, hport, _, _, hurl⟩ := hok u hp (by rw [hc]; exact hu)
    refine ⟨s, hs, ?_, ?_⟩
    · rw [hport, hport9]; rfl
    · rw [hurl, hc]; rfl
  · intro hr hp hm
    have hc : configuredRootURL app getenv = "" := by
      simp [configuredRootURL, hr, hm]
    have hparse : ∃ u, Url.Parse (Appservices.bytesOf "") = .ok u
        ∧ Url.stringOf u.Port = "" := ⟨_, rfl, rfl⟩
    obtain ⟨u, hu, hport0⟩ := hparse
    obtain ⟨s, hs, hport, _, _, hurl⟩ := hok u hp (by rw [hc]; exact hu)
    have hp8 : s.portStr = "8080" := by rw [hport, hport0]; rfl
    exact ⟨s, hs, hp8, by rw [hurl, hc, hp8]; rfl⟩

theorem RunHTTP_resolution_witness :
    (∃ s, (sampleAppAt "https://example.test:9000").RunHTTP (sampleEnv "" "") = .ok s
      ∧ s.portStr = "9000" ∧ s.app.rootURL = "https://example.test:9000")
    ∧ (∃ s, sampleApp.RunHTTP (sampleEnv "" "") = .ok s ∧ s.portStr = "8080"
      ∧ s.app.rootURL = "http://localhost:8080")
    ∧ (∃ s, (sampleAppAt "https://example.test:9000").RunHTTP (sampleEnv "" "7000") = .ok s
      ∧ s.portStr = "7000" ∧ s.listen = ":" ++ s.portStr ∧ s.app.Mode = DeployHTTP
      ∧ s.app.rootURL = "https://example.test:9000")
    ∧ sampleApp.RunHTTP (sampleEnv "http://host:port" "")
      = .error (.wrap "parse" (.sentinel "invalid port after host")) :=
  ⟨(RunHTTP_resolution (sampleAppAt "https://example.test:9000") (sampleEnv "" "")).2.2.2.1
      rfl rfl rfl,
   (RunHTTP_resolution sampleApp (sampleEnv "" "")).2.2.2.2 rfl rfl rfl,
   (RunHTTP_resolution (sampleAppAt "https://example.test:9000") (sampleEnv "" "7000")).1
      (by decide),
   (RunHTTP_resolution sampleApp (sampleEnv "http://host:port" "")).2.2.1 rfl _ rfl⟩

/-! ## Test serving -/

/-- C12: when the URL `u` of the test server is one that `url.Parse` accepts,
as the address of a bound listener is, `NewTestServer` leaves the App with the
mode HTTP and with `Deploy.HTTP` present and its root URL equal to `u`, which
is the URL of the server it returns; the server serves the App's router, which
is unchanged, so that the manifest route serves a manifest that advertises
`u`; and the manifest's `AppID`, `DisplayName`, `Version`,
`RequestedPermissions` and `RequestedLocations` are unchanged. -/
theorem NewTestServer_advertises_address {B : Type} (app : App B) (u : String)
    (parsed : Url.URL) (hu : Url.Parse (Appservices.bytesOf u) = .ok parsed) :
    ∃ app1 srv, app.NewTestServer u = .ok (app1, srv)
      ∧ app1.Mode = DeployHTTP
      ∧ (∃ h, app1.Manifest.Deploy.HTTP = some h ∧ h.RootURL = u)
      ∧ srv.URL = u ∧ srv.Handler = app1.Router ∧ app1.Router = app.Router
      ∧ app1.Manifest.AppID = app.Manifest.AppID
      ∧ app1.Manifest.DisplayName = app.Manifest.DisplayName
      ∧ app1.Manifest.Version = app.Manifest.Version
      ∧ app1.Manifest.RequestedPermissions = app.Manifest.RequestedPermissions
      ∧ app1.Manifest.RequestedLocations = app.Manifest.RequestedLocations := by
  simp only [App.NewTestServer, hu]
  refine ⟨_, _, rfl, ?_⟩
  cases hb : app.log.isNone <;> cases hh : app.Manifest.Deploy.HTTP <;>
    simp [App.defaultHTTP, App.setRootURL, hb, hh]

theorem NewTestServer_advertises_address_witness :
    ∃ app1 srv, sampleApp.NewTestServer "http://127.0.0.1:54321" = .ok (app1, srv)
      ∧ app1.Mode = DeployHTTP
      ∧ (∃ h, app1.Manifest.Deploy.HTTP = some h ∧ h.RootURL = "http://127.0.0.1:54321")
      ∧ srv.URL = "http://127.0.0.1:54321" ∧ srv.Handler = app1.Router
      ∧ app1.Router = sampleApp.Router
      ∧ app1.Manifest.AppID = sampleApp.Manifest.AppID
      ∧ app1.Manifest.DisplayName = sampleApp.Manifest.DisplayName
      ∧ app1.Manifest.Version = sampleApp.Manifest.Version
      ∧ app1.Manifest.RequestedPermissions = sampleApp.Manifest.RequestedPermissions
      ∧ app1.Manifest.RequestedLocations = sampleApp.Manifest.RequestedLocations :=
  NewTestServer_advertises_address sampleApp "http://127.0.0.1:54321"
    { Url.URL.zero with
      Scheme := Appservices.bytesOf "http"
      Host := Appservices.bytesOf "127.0.0.1:54321" } rfl

end Goapp

namespace Appsctl

open Utils Apps

/-! ## The deploy credentials are checked before any cloud call -/

theorem makeDeployAWSClient_missing {C σ : Type} (d : Deps C σ) (getenv : String → String)
    (w : σ)
    (h : getenv d.RegionEnvVar = "" ∨ getenv d.DeployAccessEnvVar = ""
      ∨ getenv d.DeploySecretEnvVar = "") :
    makeDeployAWSClient d getenv w = (.error (missingDeployVar d getenv), w) := by
  unfold makeDeployAWSClient missingDeployVar
  by_cases h1 : getenv d.RegionEnvVar = ""
  · simp [h1]
  · by_cases h2 : getenv d.DeployAccessEnvVar = ""
    · simp [h1, h2]
    · have h3 : getenv d.DeploySecretEnvVar = "" := by
        rcases h with h | h | h
        · exact absurd h h1
        · exact absurd h h2
        · exact h
      simp [h1, h2, h3]

theorem makeDeployAWSClient_present {C σ : Type} (d : Deps C σ) (getenv : String → String)
    (w : σ) (h1 : getenv d.RegionEnvVar ≠ "") (h2 : getenv d.DeployAccessEnvVar ≠ "")
    (h3 : getenv d.DeploySecretEnvVar ≠ "") :
    makeDeployAWSClient d getenv w
      = d.MakeClient (getenv d.DeployAccessEnvVar) (getenv d.DeploySecretEnvVar)
          (getenv d.RegionEnvVar) (d.logWith d.log "purpose" "appsctl deploy") w := by
  simp [makeDeployAWSClient, h1, h2, h3]

/-- C14: when the region variable, the deploy access-key variable or the
deploy secret-key variable is empty, `makeDeployAWSClient` returns a
configuration error and the outside state is untouched (no client is made),
and `init`, `deploy`, `clean` and `test deploy` return that error with the
outside state untouched (no control-plane operation is invoked). When the
three are set, `makeDeployAWSClient` returns what `MakeClient` returns; and if
then a client is made and the invoke access-key variable is empty, `clean`
fails with a configuration error in the state that `MakeClient` left, without
calling `CleanAWS`. -/
theorem deploy_configuration_checked_first {C σ : Type} (d : Deps C σ)
    (getenv : String → String) (flags : Flags) (bundle : String) (w : σ) :
    ((getenv d.RegionEnvVar = "" ∨ getenv d.DeployAccessEnvVar = ""
        ∨ getenv d.DeploySecretEnvVar = "") →
      makeDeployAWSClient d getenv w = (.error (missingDeployVar d getenv), w)
      ∧ awsInitCmd d getenv flags w = (some (missingDeployVar d getenv), w)
      ∧ awsDeployCmd d getenv flags bundle w = (some (missingDeployVar d getenv), w)
      ∧ awsCleanCmd d getenv w = (some (missingDeployVar d getenv), w)
      ∧ awsTestDeployCmd d getenv bundle w = (some (missingDeployVar d getenv), w))
    ∧ ((getenv d.RegionEnvVar ≠ "" ∧ getenv d.DeployAccessEnvVar ≠ ""
        ∧ getenv d.DeploySecretEnvVar ≠ "") →
      makeDeployAWSClient d getenv w
        = d.MakeClient (getenv d.DeployAccessEnvVar) (getenv d.DeploySecretEnvVar)
            (getenv d.RegionEnvVar) (d.logWith d.log "purpose" "appsctl deploy") w
      ∧ (∀ client w1, makeDeployAWSClient d getenv w = (.ok client, w1) →
          getenv d.AccessEnvVar = "" →
          awsCleanCmd d getenv w
            = (some (Errorf "no AWS access key was provided. Please set " d.AccessEnvVar),
               w1))) := by
  constructor
  · intro h
    have hm := makeDeployAWSClient_missing d getenv w h
    refine ⟨hm, ?_, ?_, ?_, ?_⟩
    · simp [awsInitCmd, hm]
    · simp [awsDeployCmd, hm]
    · simp [awsCleanCmd, hm]
    · simp [awsTestDeployCmd, hm]
  · intro h
    refine ⟨makeDeployAWSClient_present d getenv w h.1 h.2.1 h.2.2, ?_⟩
    intro client w1 hc ha
    simp [awsCleanCmd, hc, ha]

theorem deploy_configuration_checked_first_witness :
    (makeDeployAWSClient sampleDeps sampleAwsEnv 0
        = (.error (Errorf "no AWS access key was provided. Please set "
            "MM_APPS_DEPLOY_AWS_ACCESS_KEY"), 0)
      ∧ awsInitCmd sampleDeps sampleAwsEnv sampleFlags 0
        = (some (missingDeployVar sampleDeps sampleAwsEnv), 0)
      ∧ awsDeployCmd sampleDeps sampleAwsEnv sampleFlags "bundle.zip" 0
        = (some (missingDeployVar sampleDeps sampleAwsEnv), 0)
      ∧ awsCleanCmd sampleDeps sampleAwsEnv 0
        = (some (missingDeployVar sampleDeps sampleAwsEnv), 0)
      ∧ awsTestDeployCmd sampleDeps sampleAwsEnv "bundle.zip" 0
        = (some (missingDeployVar sampleDeps sampleAwsEnv), 0))
    ∧ awsCleanCmd sampleDeps sampleDeployEnv 0
      = (some (Errorf "no AWS access key was provided. Please set "
          "MM_APPS_AWS_ACCESS_KEY"), 1) :=
  ⟨(deploy_configuration_checked_first sampleDeps sampleAwsEnv sampleFlags "bundle.zip" 0).1
      (Or.inr (Or.inl rfl)),
   ((deploy_configuration_checked_first sampleDeps sampleDeployEnv sampleFlags "bundle.zip"
      0).2 ⟨by decide, by decide, by decide⟩).2 1 1 rfl rfl⟩

end Appsctl
